import Mathlib

/-!
The input control dispatcher of `src/input/control.c`
=======================================================

A shallow embedding of `input_vaControl` and `UpdateBookmarksOption`.

Conventions of the embedding:

* a C array with its element count (`pp_bookmark`/`i_bookmark`, `title`/`i_title`,
  `attachment`/`i_attachment`, `ppsz_options`/`i_options`) is a `List`; the count is its length;
* a pointer that the source tests against `NULL` is an `Option`;
* the variables the caller passes by address are gathered in `Caller`; the dispatcher receives
  their content before the call and returns their content after it;
* an array access `a[i]` with `i` outside `[0, count)` is undefined behaviour: the embedding
  returns `none` for the whole call;
* a call whose failure the source tests (`asprintf`, `vlc_seekpoint_Duplicate` in
  `INPUT_CHANGE_BOOKMARK`, `vlc_memstream_close`, `input_item_slave_New`, the `malloc`s followed by
  a null test, `vasprintf`) gets its outcome from `Alloc`; an allocation whose result the source
  uses untested is taken to succeed;
* functions and constants of other translation units are either fields of `Ext` (C library
  formatting, `subtitles_Filter`) or small definitions marked as modelled from the specification;
* the option strings of the item are given by their texts, and a `State` stands for a heap in
  which distinct option slots point to distinct blocks. `UpdateBookmarksOption` keeps this when
  at most one option starts with `bookmarks=`; with several, the slots it overwrites share one
  block afterwards, which the texts do not show (`options_loop_blocks` keeps the pointers), so
  what is proved about the option strings of a later call asks for at most one such option.
-/

set_option autoImplicit false

namespace InputControl

/-! ## Result codes and constants -/

/-- Modelled from the spec: the result code `Success` (`vlc_common.h` is not part of the
sources at hand; the numeric value is the one the source tests with `!i_ret`). -/
def VLC_SUCCESS : Int := 0

/-- Modelled from the spec: the result code `Generic`. -/
def VLC_EGENERIC : Int := -1

/-- Modelled from the spec: the result code `OutOfMemory`. -/
def VLC_ENOMEM : Int := -2

/-- Modelled from the spec: nominal rate, the `BASE` of the rate encoding. -/
def INPUT_RATE_DEFAULT : Int := 1000

/-- Modelled from the spec: slave type "subtitle". -/
def SLAVE_TYPE_SPU : Int := 0

/-- Modelled from the spec: slave type "audio". -/
def SLAVE_TYPE_AUDIO : Int := 1

/-- Modelled from the spec: the priority given to a slave added by the user. -/
def SLAVE_PRIORITY_USER : Int := 5

/-- Conversion of a 64-bit value to `int` (two's complement wrap-around). -/
def toInt32 (v : Int) : Int := (v + 2 ^ 31) % 2 ^ 32 - 2 ^ 31

/-! ## Data model -/

/-- The C `seekpoint_t`: a time offset and a name (`none` is the null pointer). -/
structure seekpoint_t where
  i_time_offset : Int
  psz_name : Option String
deriving DecidableEq

/-- The C `input_title_t`: attributes and the ordered seekpoints (`i_seekpoint` is the length). -/
structure input_title_t where
  psz_name : Option String
  i_length : Int
  i_flags : Nat
  seekpoint : List seekpoint_t
deriving DecidableEq

/-- The C `input_attachment_t`: a name and a payload. -/
structure input_attachment_t where
  psz_name : String
  p_data : List Nat
deriving DecidableEq

/-- The C `input_item_slave_t`. -/
structure input_item_slave_t where
  psz_uri : String
  i_type : Int
  i_priority : Int
  b_forced : Bool
deriving DecidableEq

/-- The C `vlc_viewpoint_t` (angles kept as exact numbers). -/
structure vlc_viewpoint_t where
  yaw : ℚ
  pitch : ℚ
  roll : ℚ
  fov : ℚ
deriving DecidableEq

/-- Types of the commands of the control queue used by the dispatcher. The navigation commands
are `INPUT_CONTROL_NAV_ACTIVATE + k`, with `k = i_query - INPUT_NAV_ACTIVATE`. -/
inductive input_control_e where
  | INPUT_CONTROL_NAV (k : Nat)
  | INPUT_CONTROL_SET_BOOKMARK
  | INPUT_CONTROL_ADD_SLAVE
  | INPUT_CONTROL_ADD_SUBTITLE
  | INPUT_CONTROL_RESTART_ES
  | INPUT_CONTROL_SET_VIEWPOINT
  | INPUT_CONTROL_UPDATE_VIEWPOINT
deriving DecidableEq

/-- The payload `vlc_value_t` of a command; `null` is the `NULL` argument of `input_ControlPush`. -/
inductive vlc_value_t where
  | null
  | i_int (i : Int)
  | psz_string (s : String)
  | p_slave (p : input_item_slave_t)
  | p_viewpoint (v : vlc_viewpoint_t)
deriving DecidableEq

/-- A queued command. -/
structure input_control_t where
  i_type : input_control_e
  val : vlc_value_t
deriving DecidableEq

/-- Events sent to the observers. -/
inductive input_event where
  | MetaInfo
  | Bookmark
deriving DecidableEq

/-- The state the dispatcher works on: the private part of the input thread, its item, the
variables of the input object, the resource and the events sent so far. Floating values are
exact numbers; `var_rate = none` is a value that is not finite. -/
structure State where
  pp_bookmark : List seekpoint_t
  bookmark : seekpoint_t
  title : List input_title_t
  attachment : List input_attachment_t
  b_preparsing : Bool
  control : List input_control_t
  ppsz_options : List String
  infos : List (String × String × String)
  var_position : ℚ
  var_length : Int
  var_time : Int
  var_rate : Option ℚ
  var_state : Int
  var_audio_delay : Int
  var_spu_delay : Int
  var_title : Int
  var_record : Bool
  bookmark_choices : List (Int × Option String)
  aout : Option Nat
  vouts : List Nat
  events : List input_event

/-- The variables the caller passes by address, one field per output parameter. -/
structure Caller where
  pf : ℚ
  pi_64 : Int
  pi_int : Int
  pb_bool : Bool
  ppp_bkmk : Option (List seekpoint_t)
  pi_bkmk : Int
  p_bkmk : seekpoint_t
  p_title : Option input_title_t
  pi_req_title_offset : Int
  pp_titles : Option (List input_title_t)
  pi_titles : Int
  pp_seekpoints : Option (List seekpoint_t)
  pi_title_to_fetch : Int
  ppp_attachment : Option (List input_attachment_t)
  pi_attachment : Int
  pp_attachment : Option input_attachment_t
  pp_aout : Option Nat
  ppp_vout : Option (List Nat)
  pi_vout : Nat
  pp_decoder : Option Nat
  pp_es_vout : Option Nat
  pp_es_aout : Option Nat
  pi_system : Int
  pi_delay : Int

/-- Outcomes of the calls whose failure the source tests, and result codes of the collaborators
(variable store, item metadata, `es_out`) for the current call. What `es_out` writes through
the pointers it is given is not described. -/
structure Alloc where
  asprintf_ok : Bool
  dup_ok : Bool
  memstream_ok : Bool
  slave_ok : Bool
  malloc_ok : Bool
  var_ret : Int
  info_ret : Int
  es_ret : Int

/-- Functions of the C library and of other translation units, fixed during a run.
`fmt_f3 t` is the text `"%.3f"` prints for `(1. * t) / CLOCK_FREQ`; `null_text` is what `"%s"`
prints for a null pointer; `subtitles_Filter` is the file-extension filter. -/
structure Ext where
  fmt_f3 : Int → String
  null_text : String
  subtitles_Filter : String → Bool

/-- What a returning call leaves: the result code, the state and the caller variables. -/
structure Ret where
  code : Int
  st : State
  out : Caller

/-! ## Helpers of other translation units -/

/-- Modelled from the spec: `vlc_seekpoint_Duplicate` is a deep copy (name and time offset). -/
def vlc_seekpoint_Duplicate (src : seekpoint_t) : seekpoint_t :=
  { i_time_offset := src.i_time_offset, psz_name := src.psz_name }

/-- Modelled from the spec: `vlc_input_title_Duplicate` is a deep copy, seekpoints included. -/
def vlc_input_title_Duplicate (t : input_title_t) : input_title_t :=
  { psz_name := t.psz_name, i_length := t.i_length, i_flags := t.i_flags,
    seekpoint := t.seekpoint.map vlc_seekpoint_Duplicate }

/-- Modelled from the spec: `vlc_input_attachment_Duplicate` is a deep copy. -/
def vlc_input_attachment_Duplicate (a : input_attachment_t) : input_attachment_t :=
  { psz_name := a.psz_name, p_data := a.p_data }

/-- Modelled from the spec: `input_ControlPush` hands the command off to the queue, after the
commands already in it. -/
def input_ControlPush (s : State) (i_type : input_control_e) (val : vlc_value_t) : State :=
  { s with control := s.control ++ [{ i_type := i_type, val := val }] }

/-- Modelled from the spec: `input_item_AddOption` with `VLC_INPUT_OPTION_UNIQUE` appends the
option unless the very same string is already among the options. -/
def input_item_AddOption (opts : List String) (o : String) : List String :=
  if o ∈ opts then opts else opts ++ [o]

/-- Modelled from the spec: `input_resource_HoldVouts` writes the held video outputs and their
number, or the null array and zero when there is none. -/
def input_resource_HoldVouts (s : State) (c : Caller) : Caller :=
  if s.vouts.isEmpty then { c with ppp_vout := none, pi_vout := 0 }
  else { c with ppp_vout := some s.vouts, pi_vout := s.vouts.length }

/-- Modelled from the spec: `input_item_slave_New` builds a slave with the given path, type and
priority, not forced; `none` is the null pointer of a failed allocation. -/
def input_item_slave_New (ok : Bool) (psz_uri : String) (i_type i_priority : Int) :
    Option input_item_slave_t :=
  if ok then
    some { psz_uri := psz_uri, i_type := i_type, i_priority := i_priority, b_forced := false }
  else none

/-- Modelled from the spec: `TAB_APPEND` puts the element after the last one. -/
def TAB_APPEND {α : Type} (tab : List α) (p : α) : List α := tab ++ [p]

/-- Modelled from the spec: `TAB_REMOVE` is called with the pointer just read from slot `i`;
the stored pointers are distinct allocations, so the slot found is `i`: it is removed and the
entries after it move down by one. -/
def TAB_REMOVE {α : Type} (tab : List α) (i : Nat) : List α := tab.eraseIdx i

/-- Modelled from the spec: `TAB_CLEAN` leaves the empty array. -/
def TAB_CLEAN {α : Type} (_tab : List α) : List α := []

/-- The event functions append to the events sent. -/
def input_SendEvent (s : State) (e : input_event) : State :=
  { s with events := s.events ++ [e] }

/-- Array read `a[i]` with a C `int` index: `none` outside `[0, count)`. -/
def aref {α : Type} (a : List α) (i : Int) : Option α :=
  if 0 ≤ i then a[i.toNat]? else none

/-- The conversion `"%i"` of a count. -/
def fmt_i (n : Nat) : String := Nat.repr n

/-- The conversion `"%s"`. -/
def fmt_s (x : Ext) (s : Option String) : String :=
  match s with
  | some t => t
  | none => x.null_text

/-- The test `strncmp( opt, "bookmarks=", 10 ) == 0`. -/
def is_bookmarks_option (opt : String) : Bool :=
  "bookmarks=".data.isPrefixOf opt.data

/-! ## The bookmark option serializer -/

/-- The loop of `UpdateBookmarksOption` over the bookmarks from index `i` on: each bookmark is
added to the choice-list and appended to the option buffer. -/
def bookmarks_loop (x : Ext) :
    Nat → List seekpoint_t → List (Int × Option String) × String → List (Int × Option String) × String
  | _, [], acc => acc
  | i, sp :: rest, (choices, vstr) =>
    bookmarks_loop x (i + 1) rest
      (choices ++ [((i : Int), sp.psz_name)],
       vstr ++ ((if i > 0 then "," else "") ++ "\x7bname=" ++ fmt_s x sp.psz_name
                  ++ ",time=" ++ x.fmt_f3 sp.i_time_offset ++ "\x7d"))

/-- The loop of `UpdateBookmarksOption` over the options of the item, on the texts the slots
point to: a slot whose text starts with `bookmarks=` points to the buffer afterwards; the flag
`b_overwritten` is carried along. The source stores the pointer `vstr.ptr` itself in the slot and
goes on (no `break`), so two slots that matched point to one block afterwards: the texts say
nothing about that. `options_loop_blocks` below keeps the pointers; the two agree on the texts
when the slots are distinct blocks, and the slots stay distinct blocks when at most one text
starts with `bookmarks=`. -/
def options_loop (vstr : String) : List String → Bool → List String × Bool
  | [], b_overwritten => ([], b_overwritten)
  | o :: rest, b_overwritten =>
    if is_bookmarks_option o then
      ((vstr :: (options_loop vstr rest true).1), (options_loop vstr rest true).2)
    else
      ((o :: (options_loop vstr rest b_overwritten).1), (options_loop vstr rest b_overwritten).2)

/-- The C `UpdateBookmarksOption`: rebuild the choice-list and the buffer, store the buffer among
the options when the stream closed well, then send the bookmark event. -/
def UpdateBookmarksOption (x : Ext) (al : Alloc) (s : State) : State :=
  let built := bookmarks_loop x 0 s.pp_bookmark ([], "bookmarks=")
  let s1 : State := { s with bookmark_choices := built.1 }
  let s2 : State :=
    if al.memstream_ok then
      let r := options_loop built.2 s1.ppsz_options false
      if r.2 then { s1 with ppsz_options := r.1 }
      else { s1 with ppsz_options := input_item_AddOption r.1 built.2 }
    else s1
  input_SendEvent s2 input_event.Bookmark

/-! ## The dispatcher -/

/-- The queries of `input_vaControl` with the arguments passed by value. Arguments passed by
address are fields of `Caller`. `unknown` is any query code without a `case`. -/
inductive Query where
  | INPUT_GET_POSITION
  | INPUT_SET_POSITION (f : ℚ)
  | INPUT_GET_LENGTH
  | INPUT_GET_TIME
  | INPUT_SET_TIME (i_64 : Int)
  | INPUT_GET_RATE
  | INPUT_SET_RATE (i_int : Int)
  | INPUT_GET_STATE
  | INPUT_SET_STATE (i_int : Int)
  | INPUT_GET_AUDIO_DELAY
  | INPUT_GET_SPU_DELAY
  | INPUT_SET_AUDIO_DELAY (i_64 : Int)
  | INPUT_SET_SPU_DELAY (i_64 : Int)
  | INPUT_NAV_ACTIVATE
  | INPUT_NAV_UP
  | INPUT_NAV_DOWN
  | INPUT_NAV_LEFT
  | INPUT_NAV_RIGHT
  | INPUT_NAV_POPUP
  | INPUT_NAV_MENU
  | INPUT_ADD_INFO (psz_cat psz_name psz_value : String)
  | INPUT_REPLACE_INFOS (psz_cat : String) (infos : List (String × String))
  | INPUT_MERGE_INFOS (psz_cat : String) (infos : List (String × String))
  | INPUT_DEL_INFO (psz_cat : String) (psz_name : Option String)
  | INPUT_ADD_BOOKMARK (p_bkmk : seekpoint_t)
  | INPUT_CHANGE_BOOKMARK (p_bkmk : seekpoint_t) (i_bkmk : Int)
  | INPUT_DEL_BOOKMARK (i_bkmk : Int)
  | INPUT_GET_BOOKMARKS
  | INPUT_CLEAR_BOOKMARKS
  | INPUT_SET_BOOKMARK (i_bkmk : Int)
  | INPUT_GET_BOOKMARK
  | INPUT_GET_TITLE_INFO
  | INPUT_GET_FULL_TITLE_INFO
  | INPUT_GET_SEEKPOINTS
  | INPUT_ADD_SLAVE (type : Int) (psz : Option String) (b_bool : Bool)
  | INPUT_ADD_SUBTITLE (psz : Option String) (b_bool : Bool)
  | INPUT_GET_ATTACHMENTS
  | INPUT_GET_ATTACHMENT (psz_name : String)
  | INPUT_SET_RECORD_STATE (b_bool : Bool)
  | INPUT_GET_RECORD_STATE
  | INPUT_RESTART_ES (i_int : Int)
  | INPUT_UPDATE_VIEWPOINT (p_viewpoint : vlc_viewpoint_t) (b_absolute : Bool)
  | INPUT_GET_AOUT
  | INPUT_GET_VOUTS
  | INPUT_GET_ES_OBJECTS (i_id : Int)
  | INPUT_GET_PCR_SYSTEM
  | INPUT_MODIFY_PCR_SYSTEM (b_absolute : Bool) (i_system : Int)
  | unknown (i_query : Int)

/-- The name given by `INPUT_ADD_BOOKMARK` to a bookmark: its own, or `"Bookmark %i"` printed
with the current `i_bookmark` when `asprintf` succeeds. -/
def bookmark_name (al : Alloc) (i_bookmark : Nat) (p_bkmk : seekpoint_t) : Option String :=
  match p_bkmk.psz_name with
  | some n => some n
  | none => if al.asprintf_ok then some ("Bookmark " ++ fmt_i i_bookmark) else none

/-- The scan of `INPUT_GET_ATTACHMENT`: the first attachment whose name is `psz_name`. -/
def attachment_scan (psz_name : String) : List input_attachment_t → Option input_attachment_t
  | [] => none
  | a :: rest => if a.psz_name = psz_name then some a else attachment_scan psz_name rest

/-- Conversion of a finite floating value to `int`: truncation toward zero, undefined when the
result does not fit. -/
def float_to_int (q : ℚ) : Option Int :=
  let t := q.num.tdiv (q.den : Int)
  if -(2 ^ 31) ≤ t ∧ t < 2 ^ 31 then some t else none

/-- Modelled from the spec: the item metadata operations; only the categories and names matter
to the dispatcher, which forwards the result code. -/
def input_item_infos (s : State) (q : Query) : List (String × String × String) :=
  match q with
  | .INPUT_ADD_INFO cat name value =>
    s.infos.filter (fun e => ¬ (e.1 = cat ∧ e.2.1 = name)) ++ [(cat, name, value)]
  | .INPUT_REPLACE_INFOS cat infos =>
    s.infos.filter (fun e => ¬ (e.1 = cat)) ++ infos.map (fun e => (cat, e.1, e.2))
  | .INPUT_MERGE_INFOS cat infos =>
    s.infos.filter (fun e => ¬ (e.1 = cat ∧ e.2.1 ∈ infos.map Prod.fst))
      ++ infos.map (fun e => (cat, e.1, e.2))
  | .INPUT_DEL_INFO cat (some name) => s.infos.filter (fun e => ¬ (e.1 = cat ∧ e.2.1 = name))
  | .INPUT_DEL_INFO cat none => s.infos.filter (fun e => ¬ (e.1 = cat))
  | _ => s.infos

/-- The offset `i_query - INPUT_NAV_ACTIVATE` of a navigation query. -/
def nav_offset : Query → Nat
  | .INPUT_NAV_UP => 1
  | .INPUT_NAV_DOWN => 2
  | .INPUT_NAV_LEFT => 3
  | .INPUT_NAV_RIGHT => 4
  | .INPUT_NAV_POPUP => 5
  | .INPUT_NAV_MENU => 6
  | _ => 0

/-- The metadata queries: forward to the item, send the event outside preparsing. -/
def control_info (al : Alloc) (s : State) (c : Caller) (q : Query) (always : Bool) : Option Ret :=
  let i_ret := if always then VLC_SUCCESS else al.info_ret
  let s1 : State := if i_ret = 0 then { s with infos := input_item_infos s q } else s
  let s2 : State :=
    if !s.b_preparsing && decide (i_ret = 0) then input_SendEvent s1 input_event.MetaInfo else s1
  some ⟨i_ret, s2, c⟩

/-- The C `input_vaControl`. `none` is undefined behaviour (an access outside an array, a
conversion of a value that does not fit). -/
def input_vaControl (x : Ext) (al : Alloc) (s : State) (c : Caller) (q : Query) : Option Ret :=
  match q with
  | .INPUT_GET_POSITION => some ⟨VLC_SUCCESS, s, { c with pf := s.var_position }⟩
  | .INPUT_SET_POSITION f =>
    some ⟨al.var_ret, if al.var_ret = 0 then { s with var_position := f } else s, c⟩
  | .INPUT_GET_LENGTH => some ⟨VLC_SUCCESS, s, { c with pi_64 := s.var_length }⟩
  | .INPUT_GET_TIME => some ⟨VLC_SUCCESS, s, { c with pi_64 := s.var_time }⟩
  | .INPUT_SET_TIME i_64 =>
    some ⟨al.var_ret, if al.var_ret = 0 then { s with var_time := i_64 } else s, c⟩
  | .INPUT_GET_RATE =>
    match s.var_rate with
    | none => none
    | some r =>
      if r = 0 then none
      else
        match float_to_int ((INPUT_RATE_DEFAULT : ℚ) / r) with
        | none => none
        | some v => some ⟨VLC_SUCCESS, s, { c with pi_int := v }⟩
  | .INPUT_SET_RATE i_int =>
    let f : Option ℚ := if i_int = 0 then none else some ((INPUT_RATE_DEFAULT : ℚ) / (i_int : ℚ))
    some ⟨al.var_ret, if al.var_ret = 0 then { s with var_rate := f } else s, c⟩
  | .INPUT_GET_STATE => some ⟨VLC_SUCCESS, s, { c with pi_int := toInt32 s.var_state }⟩
  | .INPUT_SET_STATE i_int =>
    some ⟨al.var_ret, if al.var_ret = 0 then { s with var_state := i_int } else s, c⟩
  | .INPUT_GET_AUDIO_DELAY => some ⟨VLC_SUCCESS, s, { c with pi_64 := s.var_audio_delay }⟩
  | .INPUT_GET_SPU_DELAY => some ⟨VLC_SUCCESS, s, { c with pi_64 := s.var_spu_delay }⟩
  | .INPUT_SET_AUDIO_DELAY i_64 =>
    some ⟨al.var_ret, if al.var_ret = 0 then { s with var_audio_delay := i_64 } else s, c⟩
  | .INPUT_SET_SPU_DELAY i_64 =>
    some ⟨al.var_ret, if al.var_ret = 0 then { s with var_spu_delay := i_64 } else s, c⟩
  | .INPUT_NAV_ACTIVATE | .INPUT_NAV_UP | .INPUT_NAV_DOWN | .INPUT_NAV_LEFT
  | .INPUT_NAV_RIGHT | .INPUT_NAV_POPUP | .INPUT_NAV_MENU =>
    some ⟨VLC_SUCCESS,
      input_ControlPush s (input_control_e.INPUT_CONTROL_NAV (nav_offset q)) vlc_value_t.null, c⟩
  | .INPUT_ADD_INFO _ _ _ =>
    if al.malloc_ok then control_info al s c q false else some ⟨VLC_EGENERIC, s, c⟩
  | .INPUT_REPLACE_INFOS _ _ | .INPUT_MERGE_INFOS _ _ => control_info al s c q true
  | .INPUT_DEL_INFO _ _ => control_info al s c q false
  | .INPUT_ADD_BOOKMARK p_bkmk =>
    let p := vlc_seekpoint_Duplicate p_bkmk
    match bookmark_name al s.pp_bookmark.length p with
    | some n =>
      some ⟨VLC_SUCCESS,
        UpdateBookmarksOption x al
          { s with pp_bookmark := TAB_APPEND s.pp_bookmark { p with psz_name := some n } }, c⟩
    | none => some ⟨VLC_EGENERIC, UpdateBookmarksOption x al s, c⟩
  | .INPUT_CHANGE_BOOKMARK p_bkmk i_bkmk =>
    if i_bkmk < (s.pp_bookmark.length : Int) then
      if al.dup_ok then
        match aref s.pp_bookmark i_bkmk with
        | none => none
        | some _ =>
          some ⟨VLC_SUCCESS,
            UpdateBookmarksOption x al
              { s with pp_bookmark :=
                  s.pp_bookmark.set i_bkmk.toNat (vlc_seekpoint_Duplicate p_bkmk) }, c⟩
      else some ⟨VLC_EGENERIC, UpdateBookmarksOption x al s, c⟩
    else some ⟨VLC_EGENERIC, UpdateBookmarksOption x al s, c⟩
  | .INPUT_DEL_BOOKMARK i_bkmk =>
    if i_bkmk < (s.pp_bookmark.length : Int) then
      match aref s.pp_bookmark i_bkmk with
      | none => none
      | some _ =>
        some ⟨VLC_SUCCESS,
          UpdateBookmarksOption x al
            { s with pp_bookmark := TAB_REMOVE s.pp_bookmark i_bkmk.toNat }, c⟩
    else some ⟨VLC_EGENERIC, s, c⟩
  | .INPUT_GET_BOOKMARKS =>
    if s.pp_bookmark.length ≠ 0 then
      some ⟨VLC_SUCCESS, s,
        { c with pi_bkmk := s.pp_bookmark.length,
                 ppp_bkmk := some (s.pp_bookmark.map vlc_seekpoint_Duplicate) }⟩
    else some ⟨VLC_EGENERIC, s, { c with ppp_bkmk := none, pi_bkmk := 0 }⟩
  | .INPUT_CLEAR_BOOKMARKS =>
    some ⟨VLC_SUCCESS,
      UpdateBookmarksOption x al { s with pp_bookmark := TAB_CLEAN s.pp_bookmark }, c⟩
  | .INPUT_SET_BOOKMARK i_bkmk =>
    some ⟨VLC_SUCCESS,
      input_ControlPush s input_control_e.INPUT_CONTROL_SET_BOOKMARK (vlc_value_t.i_int i_bkmk), c⟩
  | .INPUT_GET_BOOKMARK => some ⟨VLC_SUCCESS, s, { c with p_bkmk := s.bookmark }⟩
  | .INPUT_GET_TITLE_INFO =>
    let i_current_title := toInt32 s.var_title
    let c1 : Caller :=
      if c.pi_req_title_offset < 0 then { c with pi_req_title_offset := i_current_title } else c
    if s.title.length ≠ 0 ∧ (s.title.length : Int) > c1.pi_req_title_offset then
      match aref s.title c1.pi_req_title_offset with
      | none => none
      | some t => some ⟨VLC_SUCCESS, s, { c1 with p_title := some (vlc_input_title_Duplicate t) }⟩
    else some ⟨VLC_EGENERIC, s, c1⟩
  | .INPUT_GET_FULL_TITLE_INFO =>
    let count := s.title.length
    if count > 0 ∧ al.malloc_ok = false then some ⟨VLC_ENOMEM, s, c⟩
    else
      some ⟨VLC_SUCCESS, s,
        { c with pp_titles :=
                   if al.malloc_ok then some (s.title.map vlc_input_title_Duplicate) else none,
                 pi_titles := count }⟩
  | .INPUT_GET_SEEKPOINTS =>
    let c1 : Caller :=
      if c.pi_title_to_fetch < 0 then { c with pi_title_to_fetch := toInt32 s.var_title } else c
    if s.title.length = 0 ∨ (s.title.length : Int) ≤ c1.pi_title_to_fetch then
      some ⟨VLC_EGENERIC, s, c1⟩
    else
      match aref s.title c1.pi_title_to_fetch with
      | none => none
      | some p_title =>
        let i_chapters := p_title.seekpoint.length
        let c2 : Caller := { c1 with pi_title_to_fetch := i_chapters }
        if i_chapters = 0 then some ⟨VLC_SUCCESS, s, c2⟩
        else
          some ⟨VLC_SUCCESS, s,
            { c2 with pp_seekpoints := some (p_title.seekpoint.map vlc_seekpoint_Duplicate) }⟩
  | .INPUT_ADD_SLAVE type psz b_bool =>
    match psz with
    | none => some ⟨VLC_EGENERIC, s, c⟩
    | some uri =>
      if type ≠ SLAVE_TYPE_SPU ∧ type ≠ SLAVE_TYPE_AUDIO then some ⟨VLC_EGENERIC, s, c⟩
      else
        match input_item_slave_New al.slave_ok uri type SLAVE_PRIORITY_USER with
        | none => some ⟨VLC_ENOMEM, s, c⟩
        | some p_slave =>
          some ⟨VLC_SUCCESS,
            input_ControlPush s input_control_e.INPUT_CONTROL_ADD_SLAVE
              (vlc_value_t.p_slave { p_slave with b_forced := b_bool }), c⟩
  | .INPUT_ADD_SUBTITLE psz b_bool =>
    match psz with
    | none => some ⟨VLC_EGENERIC, s, c⟩
    | some path =>
      if path.data = [] then some ⟨VLC_EGENERIC, s, c⟩
      else if b_bool && !x.subtitles_Filter path then some ⟨VLC_EGENERIC, s, c⟩
      else
        some ⟨VLC_SUCCESS,
          input_ControlPush s input_control_e.INPUT_CONTROL_ADD_SUBTITLE
            (vlc_value_t.psz_string path), c⟩
  | .INPUT_GET_ATTACHMENTS =>
    if s.attachment.length ≤ 0 then
      some ⟨VLC_EGENERIC, s, { c with ppp_attachment := none, pi_attachment := 0 }⟩
    else
      some ⟨VLC_SUCCESS, s,
        { c with pi_attachment := s.attachment.length,
                 ppp_attachment := some (s.attachment.map vlc_input_attachment_Duplicate) }⟩
  | .INPUT_GET_ATTACHMENT psz_name =>
    match attachment_scan psz_name s.attachment with
    | some a =>
      some ⟨VLC_SUCCESS, s, { c with pp_attachment := some (vlc_input_attachment_Duplicate a) }⟩
    | none => some ⟨VLC_EGENERIC, s, { c with pp_attachment := none }⟩
  | .INPUT_SET_RECORD_STATE b_bool => some ⟨VLC_SUCCESS, { s with var_record := b_bool }, c⟩
  | .INPUT_GET_RECORD_STATE => some ⟨VLC_SUCCESS, s, { c with pb_bool := s.var_record }⟩
  | .INPUT_RESTART_ES i_int =>
    some ⟨VLC_SUCCESS,
      input_ControlPush s input_control_e.INPUT_CONTROL_RESTART_ES (vlc_value_t.i_int i_int), c⟩
  | .INPUT_UPDATE_VIEWPOINT p_viewpoint b_absolute =>
    if al.malloc_ok = false then some ⟨VLC_ENOMEM, s, c⟩
    else if b_absolute then
      some ⟨VLC_SUCCESS,
        input_ControlPush s input_control_e.INPUT_CONTROL_SET_VIEWPOINT
          (vlc_value_t.p_viewpoint p_viewpoint), c⟩
    else
      some ⟨VLC_SUCCESS,
        input_ControlPush s input_control_e.INPUT_CONTROL_UPDATE_VIEWPOINT
          (vlc_value_t.p_viewpoint p_viewpoint), c⟩
  | .INPUT_GET_AOUT =>
    match s.aout with
    | none => some ⟨VLC_EGENERIC, s, c⟩
    | some p_aout => some ⟨VLC_SUCCESS, s, { c with pp_aout := some p_aout }⟩
  | .INPUT_GET_VOUTS =>
    let c1 := input_resource_HoldVouts s c
    if c1.pi_vout ≤ 0 then some ⟨VLC_EGENERIC, s, c1⟩ else some ⟨VLC_SUCCESS, s, c1⟩
  | .INPUT_GET_ES_OBJECTS _ => some ⟨al.es_ret, s, c⟩
  | .INPUT_GET_PCR_SYSTEM => some ⟨al.es_ret, s, c⟩
  | .INPUT_MODIFY_PCR_SYSTEM _ _ => some ⟨al.es_ret, s, c⟩
  | .unknown _ => some ⟨VLC_EGENERIC, s, c⟩

/-! ## The views of the bookmark collection, in the words of the specification -/

/-- The choice-list the specification asks for: the pairs (index, name) in collection order. -/
def choice_list (bs : List seekpoint_t) : List (Int × Option String) :=
  bs.enum.map (fun p => ((p.1 : Int), p.2.psz_name))

/-- One fragment of the option line. -/
def fragment (x : Ext) (sp : seekpoint_t) : String :=
  "\x7bname=" ++ fmt_s x sp.psz_name ++ ",time=" ++ x.fmt_f3 sp.i_time_offset ++ "\x7d"

/-- Fragments separated by single commas, no leading and no trailing comma. -/
def entries : List String → String
  | [] => ""
  | [f] => f
  | f :: g :: rest => f ++ "," ++ entries (g :: rest)

/-- The persisted option line of a bookmark collection. -/
def bookmarks_option (x : Ext) (bs : List seekpoint_t) : String :=
  "bookmarks=" ++ entries (bs.map (fragment x))

/-- Fragments each preceded by a comma (what the loop appends from the second bookmark on). -/
def comma_entries : List String → String
  | [] => ""
  | f :: rest => "," ++ f ++ comma_entries rest

/-! ## Sample values -/

/-- A sample environment: times printed as whole seconds, every subtitle path accepted. -/
def sample_ext : Ext :=
  { fmt_f3 := fun t => Nat.repr (t.toNat / 1000000) ++ ".000",
    null_text := "(null)",
    subtitles_Filter := fun _ => true }

/-- Every tested call succeeds. -/
def all_ok : Alloc :=
  { asprintf_ok := true, dup_ok := true, memstream_ok := true, slave_ok := true,
    malloc_ok := true, var_ret := 0, info_ret := 0, es_ret := 0 }

/-- Every tested call succeeds except `vlc_memstream_close`. -/
def memstream_fails : Alloc := { all_ok with memstream_ok := false }

/-- A seekpoint without a name at time zero. -/
def unnamed_point : seekpoint_t := { i_time_offset := 0, psz_name := none }

/-- A named seekpoint at two seconds. -/
def intro_point : seekpoint_t := { i_time_offset := 2000000, psz_name := some "intro" }

/-- A state with empty collections. -/
def empty_state : State :=
  { pp_bookmark := [], bookmark := unnamed_point, title := [], attachment := [],
    b_preparsing := false, control := [], ppsz_options := [], infos := [],
    var_position := 0, var_length := 0, var_time := 0, var_rate := some 1, var_state := 0,
    var_audio_delay := 0, var_spu_delay := 0, var_title := 0, var_record := false,
    bookmark_choices := [], aout := none, vouts := [], events := [] }

/-- Caller variables holding null pointers and zeroes. -/
def blank_caller : Caller :=
  { pf := 0, pi_64 := 0, pi_int := 0, pb_bool := false, ppp_bkmk := none, pi_bkmk := 0,
    p_bkmk := unnamed_point, p_title := none, pi_req_title_offset := 0, pp_titles := none,
    pi_titles := 0, pp_seekpoints := none, pi_title_to_fetch := 0, ppp_attachment := none,
    pi_attachment := 0, pp_attachment := none, pp_aout := none, ppp_vout := none, pi_vout := 0,
    pp_decoder := none, pp_es_vout := none, pp_es_aout := none, pi_system := 0, pi_delay := 0 }

/-- A state with one bookmark. -/
def one_bookmark_state : State := { empty_state with pp_bookmark := [intro_point] }

/-! ## Runs of queries and the names given to unnamed bookmarks -/

/-- The name synthesized by a step: the name of the entry appended by a successful
`INPUT_ADD_BOOKMARK` of a bookmark without a name; nothing for any other step. -/
def auto_name_of (q : Query) (r : Ret) : List String :=
  match q with
  | .INPUT_ADD_BOOKMARK b =>
    if b.psz_name = none ∧ r.code = VLC_SUCCESS then
      match r.st.pp_bookmark.getLast? with
      | some sp => sp.psz_name.toList
      | none => []
    else []
  | _ => []

/-- The names synthesized along a run of queries, in order. The run stops at undefined
behaviour. -/
def auto_names (x : Ext) : State → Caller → List (Alloc × Query) → List String
  | _, _, [] => []
  | s, c, (al, q) :: rest =>
    match input_vaControl x al s c q with
    | none => []
    | some r => auto_name_of q r ++ auto_names x r.st r.out rest

/-- The four queries that act on the bookmark collection. -/
def is_bookmark_query : Query → Bool
  | .INPUT_ADD_BOOKMARK _ => true
  | .INPUT_CHANGE_BOOKMARK _ _ => true
  | .INPUT_DEL_BOOKMARK _ => true
  | .INPUT_CLEAR_BOOKMARKS => true
  | _ => false

/-- The two of them that never shorten the collection. -/
def is_add_or_change : Query → Bool
  | .INPUT_ADD_BOOKMARK _ => true
  | .INPUT_CHANGE_BOOKMARK _ _ => true
  | _ => false

/-- A run that adds an unnamed bookmark, deletes it and adds an unnamed bookmark again. -/
def add_del_add : List (Alloc × Query) :=
  [(all_ok, .INPUT_ADD_BOOKMARK unnamed_point), (all_ok, .INPUT_DEL_BOOKMARK 0),
   (all_ok, .INPUT_ADD_BOOKMARK unnamed_point)]

/-- A run that adds two unnamed bookmarks around a change. -/
def add_change_add : List (Alloc × Query) :=
  [(all_ok, .INPUT_ADD_BOOKMARK unnamed_point), (all_ok, .INPUT_CHANGE_BOOKMARK intro_point 0),
   (all_ok, .INPUT_ADD_BOOKMARK unnamed_point)]

/-- Value of a decimal digit character. -/
def digit_value (c : Char) : Nat := c.toNat - 48

/-- Value of a string of decimal digits read after the number `acc`. -/
def digits_value (cs : List Char) (acc : Nat) : Nat :=
  cs.foldl (fun a c => a * 10 + digit_value c) acc

/-- A state with one bookmark whose option line is up to date. -/
def stored_option_state : State :=
  { one_bookmark_state with ppsz_options := ["bookmarks=\x7bname=intro,time=2.000\x7d"] }

/-- A title with one seekpoint. -/
def sample_title : input_title_t :=
  { psz_name := some "main", i_length := 0, i_flags := 0, seekpoint := [intro_point] }

/-- Caller variables whose handles hold values from before the call. -/
def stale_caller : Caller :=
  { blank_caller with p_title := some sample_title, pp_seekpoints := some [intro_point],
                      pp_aout := some 7, ppp_bkmk := some [intro_point], pi_bkmk := 1 }

/-- A named seekpoint at nine seconds. -/
def outro_point : seekpoint_t := { i_time_offset := 9000000, psz_name := some "outro" }

/-- A state with two bookmarks. -/
def two_bookmark_state : State := { empty_state with pp_bookmark := [intro_point, outro_point] }

/-- Every tested call succeeds except the duplication in `INPUT_CHANGE_BOOKMARK`. -/
def dup_fails : Alloc := { all_ok with dup_ok := false }

/-- An attachment named `font`. -/
def font_attachment : input_attachment_t := { psz_name := "font", p_data := [3] }

/-- A first attachment named `cover`. -/
def cover_attachment : input_attachment_t := { psz_name := "cover", p_data := [1] }

/-- A second attachment named `cover`, with another payload. -/
def cover_attachment_bis : input_attachment_t := { psz_name := "cover", p_data := [2] }

/-- A state with three attachments, two of them with the same name. -/
def attachment_state : State :=
  { empty_state with attachment := [font_attachment, cover_attachment, cover_attachment_bis] }

/-- The title offset a query works on: the current value of the `title` variable (as an `int`)
when the requested offset is negative, the requested offset otherwise. -/
def resolved_title_offset (s : State) (req : Int) : Int :=
  if req < 0 then toInt32 s.var_title else req

/-- A title without seekpoints. -/
def bare_title : input_title_t :=
  { psz_name := some "menu", i_length := 0, i_flags := 0, seekpoint := [] }

/-- A state with two titles of one seekpoint each, the first one current. -/
def two_title_state : State := { empty_state with title := [sample_title, sample_title] }

/-- The same state with the second title current. -/
def two_title_state_second : State := { two_title_state with var_title := 1 }

/-- A state with a title of two seekpoints followed by a title without seekpoints. -/
def mixed_title_state : State :=
  { empty_state with
      title := [{ sample_title with seekpoint := [intro_point, outro_point] }, bare_title] }

/-- Caller variables asking for the current title (offset `-1`). -/
def current_title_caller : Caller :=
  { stale_caller with pi_title_to_fetch := -1, pi_req_title_offset := -1 }

/-- The four metadata queries. -/
def is_info_query : Query → Bool
  | .INPUT_ADD_INFO _ _ _ => true
  | .INPUT_REPLACE_INFOS _ _ => true
  | .INPUT_MERGE_INFOS _ _ => true
  | .INPUT_DEL_INFO _ _ => true
  | _ => false

/-- A state in preparsing mode, no event sent yet. -/
def preparsing_state : State := { empty_state with b_preparsing := true }

/-- A sufficient condition for an exact number to be a value of the C type `float` (binary32):
it is `m / 2 ^ k` with `|m| < 2 ^ 24` and `k ≤ 149`. An arithmetic operation whose exact result
satisfies it is not rounded. -/
def fits_binary32 (q : ℚ) : Prop :=
  ∃ (m : Int) (k : Nat), |m| < 2 ^ 24 ∧ k ≤ 149 ∧ q = (m : ℚ) / 2 ^ k

/-- The queries that only hand a command off to the control queue. -/
def is_queue_query : Query → Bool
  | .INPUT_NAV_ACTIVATE => true
  | .INPUT_NAV_UP => true
  | .INPUT_NAV_DOWN => true
  | .INPUT_NAV_LEFT => true
  | .INPUT_NAV_RIGHT => true
  | .INPUT_NAV_POPUP => true
  | .INPUT_NAV_MENU => true
  | .INPUT_SET_BOOKMARK _ => true
  | .INPUT_RESTART_ES _ => true
  | .INPUT_ADD_SLAVE _ _ _ => true
  | .INPUT_ADD_SUBTITLE _ _ => true
  | .INPUT_UPDATE_VIEWPOINT _ _ => true
  | _ => false

/-- The synchronous queries that read the variables, the collections or the resource. -/
def is_read_query : Query → Bool
  | .INPUT_GET_POSITION => true
  | .INPUT_GET_LENGTH => true
  | .INPUT_GET_TIME => true
  | .INPUT_GET_RATE => true
  | .INPUT_GET_STATE => true
  | .INPUT_GET_AUDIO_DELAY => true
  | .INPUT_GET_SPU_DELAY => true
  | .INPUT_GET_BOOKMARKS => true
  | .INPUT_GET_BOOKMARK => true
  | .INPUT_GET_TITLE_INFO => true
  | .INPUT_GET_FULL_TITLE_INFO => true
  | .INPUT_GET_SEEKPOINTS => true
  | .INPUT_GET_ATTACHMENTS => true
  | .INPUT_GET_ATTACHMENT _ => true
  | .INPUT_GET_RECORD_STATE => true
  | .INPUT_GET_AOUT => true
  | .INPUT_GET_VOUTS => true
  | _ => false

/-- What the caller sees of a call: the result code and the caller variables. -/
def observed (o : Option Ret) : Option (Int × Caller) :=
  o.map (fun r => (r.code, r.out))

/-- A state with one bookmark, an unrelated option and an outdated bookmark option. -/
def outdated_option_state : State :=
  { one_bookmark_state with ppsz_options := ["video-filter=x", "bookmarks=old"] }

/-- A state with one bookmark and two options that start with `bookmarks=`. -/
def double_option_state : State :=
  { one_bookmark_state with ppsz_options := ["bookmarks=old", "video-filter=x", "bookmarks=older"] }

/-- Every stored bookmark has a name. -/
def all_named (bs : List seekpoint_t) : Prop :=
  ∀ sp ∈ bs, sp.psz_name ≠ none

/-! ## The conversion `"%.3f"` of a time offset -/

/-- Modelled from the spec: the number of time units in one second, by which a time offset is
divided to give seconds (`vlc_config.h` is not part of the sources at hand; time offsets count
microseconds). -/
def CLOCK_FREQ : Int := 1000000

/-- Position of the leading bit of `n` (`0` for `n < 2`), found by halving at most `fuel`
times. -/
def log2_floor : Nat → Nat → Nat
  | 0, _ => 0
  | fuel + 1, n => if n < 2 then 0 else log2_floor fuel (n / 2) + 1

/-- The binary exponent `e` of a positive number: `2 ^ e ≤ n < 2 ^ (e + 1)`. -/
def binary_exponent (n : Nat) : Nat := log2_floor n n

/-- The quotient `a / b` rounded to the nearest integer, a tie going to the even one: the
rounding of IEEE 754 arithmetic and of the decimal conversions of the C library. -/
def round_div (a b : Nat) : Nat :=
  if 2 * (a % b) < b then a / b
  else if b < 2 * (a % b) then a / b + 1
  else if a / b % 2 = 0 then a / b
  else a / b + 1

/-- The conversion of the magnitude of a 64-bit integer to `double` in `1. * t`: exact below
`2 ^ 53`, rounded to 53 significant bits from there on. -/
def to_double (n : Nat) : Nat :=
  if n < 2 ^ 53 then n
  else round_div n (2 ^ (binary_exponent n - 52)) * 2 ^ (binary_exponent n - 52)

/-- The scale of the `double` quotient `n / CLOCK_FREQ`, for `n` below `2 ^ 64`: the `k` with
`2 ^ 52 ≤ n * 2 ^ k / CLOCK_FREQ < 2 ^ 53`. -/
def quotient_shift (n : Nat) : Nat :=
  if CLOCK_FREQ.toNat * 2 ^ 53
      ≤ n * 2 ^ (53 + binary_exponent CLOCK_FREQ.toNat - binary_exponent n) then
    53 + binary_exponent CLOCK_FREQ.toNat - binary_exponent n - 1
  else 53 + binary_exponent CLOCK_FREQ.toNat - binary_exponent n

/-- The 53-bit significand of the `double` quotient `n / CLOCK_FREQ`: the quotient is the number
`quotient_mantissa n / 2 ^ quotient_shift n`. -/
def quotient_mantissa (n : Nat) : Nat :=
  round_div (n * 2 ^ quotient_shift n) CLOCK_FREQ.toNat

/-- The number of thousandths that `"%.3f"` prints for the magnitude of
`( 1. * t ) / CLOCK_FREQ`: the `double` quotient rounded to three decimal places. -/
def seconds_thousandths (t : Int) : Nat :=
  round_div (1000 * quotient_mantissa (to_double t.natAbs))
    (2 ^ quotient_shift (to_double t.natAbs))

/-- The three decimal digits of a number below one thousand. -/
def three_digits (n : Nat) : String :=
  String.mk [Nat.digitChar (n / 100 % 10), Nat.digitChar (n / 10 % 10), Nat.digitChar (n % 10)]

/-- The text that `"%.3f"` prints for `( 1. * t ) / CLOCK_FREQ` with a 64-bit `t`, where
`double` is the IEEE 754 binary64 format: a minus sign for a negative value, the integral part,
a point and three decimal digits. -/
def seconds_f3 (t : Int) : String :=
  (if t < 0 then "-" else "") ++ Nat.repr (seconds_thousandths t / 1000) ++ "."
    ++ three_digits (seconds_thousandths t % 1000)

/-- An environment whose `"%.3f"` conversion is `seconds_f3`. -/
def libc_ext : Ext := { sample_ext with fmt_f3 := seconds_f3 }

/-- A named seekpoint at 1.234567 seconds. -/
def fraction_point : seekpoint_t := { i_time_offset := 1234567, psz_name := some "mid" }

/-! ## The option slots as pointers -/

/-- An option slot seen as a pointer: the heap block that `ppsz_options[i]` points to and the
text in that block. -/
structure option_slot where
  block : Nat
  text : String
deriving DecidableEq

/-- The loop of `UpdateBookmarksOption` over the options with the pointers kept. `freed` holds
the blocks passed to `free` so far in the loop; `vstr_ptr` is the block of the buffer. A slot
whose block was freed makes `strncmp` read a freed block: undefined behaviour, `none`. A slot
whose text starts with `bookmarks=` has its block freed and receives the pointer `vstr.ptr`
itself, not a copy, and the loop goes on. -/
def options_loop_blocks (vstr_ptr : Nat) (vstr : String) :
    List option_slot → List Nat → Option (List option_slot)
  | [], _ => some []
  | sl :: rest, freed =>
    if sl.block ∈ freed then none
    else if is_bookmarks_option sl.text then
      (options_loop_blocks vstr_ptr vstr rest (sl.block :: freed)).map
        (fun r => { block := vstr_ptr, text := vstr } :: r)
    else
      (options_loop_blocks vstr_ptr vstr rest freed).map (fun r => sl :: r)

/-- Three option slots in three blocks, two of them starting with `bookmarks=`. -/
def double_option_slots : List option_slot :=
  [{ block := 1, text := "bookmarks=old" }, { block := 2, text := "video-filter=x" },
   { block := 3, text := "bookmarks=older" }]

/-! ## Lemmas on the serializer -/

theorem entries_cons (f : String) (rest : List String) :
    entries (f :: rest) = f ++ comma_entries rest := by
  induction rest generalizing f with
  | nil => simp [entries, comma_entries]
  | cons g rest ih => simp [entries, comma_entries, ih, String.append_assoc]

theorem bookmarks_loop_fst (x : Ext) (bs : List seekpoint_t) (i : Nat)
    (ch : List (Int × Option String)) (v : String) :
    (bookmarks_loop x i bs (ch, v)).1
      = ch ++ (bs.enumFrom i).map (fun p => ((p.1 : Int), p.2.psz_name)) := by
  induction bs generalizing i ch v with
  | nil => simp [bookmarks_loop]
  | cons sp rest ih => simp [bookmarks_loop, ih, List.enumFrom]

theorem bookmarks_loop_snd_pos (x : Ext) (bs : List seekpoint_t) (i : Nat) (hi : 0 < i)
    (ch : List (Int × Option String)) (v : String) :
    (bookmarks_loop x i bs (ch, v)).2 = v ++ comma_entries (bs.map (fragment x)) := by
  induction bs generalizing i ch v with
  | nil => simp [bookmarks_loop, comma_entries]
  | cons sp rest ih =>
    simp only [bookmarks_loop, List.map_cons, comma_entries]
    rw [ih (i + 1) (Nat.succ_pos i)]
    have e : (if i > 0 then "," else "") = "," := by simp [hi]
    simp only [e, fragment, String.append_assoc]

theorem bookmarks_loop_snd (x : Ext) (bs : List seekpoint_t) :
    (bookmarks_loop x 0 bs ([], "bookmarks=")).2 = bookmarks_option x bs := by
  cases bs with
  | nil => simp [bookmarks_loop, bookmarks_option, entries]
  | cons sp rest =>
    simp only [bookmarks_loop, bookmarks_option, List.map_cons, entries_cons]
    rw [bookmarks_loop_snd_pos x rest 1 Nat.one_pos]
    have e : (if 0 > 0 then "," else "") = "" := by simp
    simp only [e, fragment, String.append_assoc, String.empty_append]

theorem options_loop_eq (vstr : String) (opts : List String) (b : Bool) :
    options_loop vstr opts b
      = (opts.map (fun o => if is_bookmarks_option o then vstr else o),
         b || opts.any is_bookmarks_option) := by
  induction opts generalizing b with
  | nil => simp [options_loop]
  | cons o rest ih =>
    by_cases h : is_bookmarks_option o = true
    · simp [options_loop, ih, h]
    · simp [options_loop, ih, h]

theorem UpdateBookmarksOption_pp_bookmark (x : Ext) (al : Alloc) (s : State) :
    (UpdateBookmarksOption x al s).pp_bookmark = s.pp_bookmark := by
  unfold UpdateBookmarksOption input_SendEvent
  by_cases hm : al.memstream_ok = true
  · by_cases ho : (options_loop (bookmarks_loop x 0 s.pp_bookmark ([], "bookmarks=")).2
        s.ppsz_options false).2 = true
    · simp [hm, ho]
    · simp [hm, ho]
  · simp [hm]

theorem UpdateBookmarksOption_choices (x : Ext) (al : Alloc) (s : State) :
    (UpdateBookmarksOption x al s).bookmark_choices = choice_list s.pp_bookmark := by
  unfold UpdateBookmarksOption input_SendEvent
  have h := bookmarks_loop_fst x s.pp_bookmark 0 [] "bookmarks="
  by_cases hm : al.memstream_ok = true
  · by_cases ho : (options_loop (bookmarks_loop x 0 s.pp_bookmark ([], "bookmarks=")).2
        s.ppsz_options false).2 = true
    · simp [hm, ho, h, choice_list, List.enum]
    · simp [hm, ho, h, choice_list, List.enum]
  · simp [hm, h, choice_list, List.enum]

/-- The options after `UpdateBookmarksOption`. -/
theorem UpdateBookmarksOption_options (x : Ext) (al : Alloc) (s : State) :
    (UpdateBookmarksOption x al s).ppsz_options
      = if al.memstream_ok then
          if s.ppsz_options.any is_bookmarks_option then
            s.ppsz_options.map
              (fun o => if is_bookmarks_option o then bookmarks_option x s.pp_bookmark else o)
          else
            input_item_AddOption
              (s.ppsz_options.map
                (fun o => if is_bookmarks_option o then bookmarks_option x s.pp_bookmark else o))
              (bookmarks_option x s.pp_bookmark)
        else s.ppsz_options := by
  unfold UpdateBookmarksOption input_SendEvent
  simp only [options_loop_eq, bookmarks_loop_snd, Bool.false_or]
  by_cases hm : al.memstream_ok = true
  · by_cases ho : s.ppsz_options.any is_bookmarks_option = true
    · simp [hm, ho]
    · simp [hm, ho]
  · simp [hm]

theorem vlc_seekpoint_Duplicate_eq (b : seekpoint_t) : vlc_seekpoint_Duplicate b = b := rfl

theorem map_vlc_seekpoint_Duplicate (l : List seekpoint_t) :
    l.map vlc_seekpoint_Duplicate = l := by
  induction l with
  | nil => rfl
  | cons a l ih => simp [ih, vlc_seekpoint_Duplicate_eq]

/-! ## Bookmarks: add, list, change, delete -/

/-- C1: `INPUT_ADD_BOOKMARK` of a bookmark `b` that carries a name returns `VLC_SUCCESS`, and a
directly following `INPUT_GET_BOOKMARKS` returns `VLC_SUCCESS` with the old count plus one, the
old entries in order followed by an entry with the name and the time offset of `b`; listing
leaves the stored collection as it is, and whatever the caller variables hold afterwards (for
example edited copies) a further listing returns the same entries. -/
theorem add_bookmark_then_get_bookmarks (x : Ext) (al al2 : Alloc) (s : State) (c c2 : Caller)
    (b : seekpoint_t) (hname : b.psz_name ≠ none) :
    ∃ r r2 last,
      input_vaControl x al s c (.INPUT_ADD_BOOKMARK b) = some r
      ∧ r.code = VLC_SUCCESS
      ∧ input_vaControl x al2 r.st c2 .INPUT_GET_BOOKMARKS = some r2
      ∧ r2.code = VLC_SUCCESS
      ∧ r2.out.pi_bkmk = (s.pp_bookmark.length : Int) + 1
      ∧ r2.out.ppp_bkmk = some (s.pp_bookmark ++ [last])
      ∧ last.psz_name = b.psz_name
      ∧ last.i_time_offset = b.i_time_offset
      ∧ r2.st.pp_bookmark = r.st.pp_bookmark
      ∧ ∀ (al3 : Alloc) (c3 : Caller), ∃ r3,
          input_vaControl x al3 r2.st c3 .INPUT_GET_BOOKMARKS = some r3
          ∧ r3.code = VLC_SUCCESS
          ∧ r3.out.ppp_bkmk = some (s.pp_bookmark ++ [last]) := by
  obtain ⟨n, hn⟩ := Option.ne_none_iff_exists'.mp hname
  have hst : (UpdateBookmarksOption x al { s with pp_bookmark := s.pp_bookmark ++ [b] }).pp_bookmark
      = s.pp_bookmark ++ [b] := UpdateBookmarksOption_pp_bookmark x al _
  refine ⟨⟨VLC_SUCCESS, UpdateBookmarksOption x al { s with pp_bookmark := s.pp_bookmark ++ [b] },
      c⟩, ⟨VLC_SUCCESS,
        UpdateBookmarksOption x al { s with pp_bookmark := s.pp_bookmark ++ [b] },
        { c2 with pi_bkmk := ((s.pp_bookmark ++ [b]).length : Nat),
                  ppp_bkmk := some ((s.pp_bookmark ++ [b]).map vlc_seekpoint_Duplicate) }⟩,
      b, ?_, rfl, ?_, rfl, ?_, ?_, rfl, rfl, rfl, ?_⟩
  · simp only [input_vaControl, bookmark_name, vlc_seekpoint_Duplicate, TAB_APPEND, hn]
    rw [← hn]
  · simp [input_vaControl, hst]
  · simp
  · simp [map_vlc_seekpoint_Duplicate, vlc_seekpoint_Duplicate_eq]
  · intro al3 c3
    exact ⟨⟨VLC_SUCCESS,
        UpdateBookmarksOption x al { s with pp_bookmark := s.pp_bookmark ++ [b] },
        { c3 with pi_bkmk := ((s.pp_bookmark ++ [b]).length : Nat),
                  ppp_bkmk := some ((s.pp_bookmark ++ [b]).map vlc_seekpoint_Duplicate) }⟩,
      by simp [input_vaControl, hst], rfl,
      by simp [map_vlc_seekpoint_Duplicate, vlc_seekpoint_Duplicate_eq]⟩

/-- Witness of C1: `intro_point` carries a name; it is added to the empty collection. -/
theorem add_bookmark_then_get_bookmarks_witness :
    intro_point.psz_name ≠ none ∧
    ∃ r r2 last,
      input_vaControl sample_ext all_ok empty_state blank_caller
          (.INPUT_ADD_BOOKMARK intro_point) = some r
      ∧ r.code = VLC_SUCCESS
      ∧ input_vaControl sample_ext all_ok r.st blank_caller .INPUT_GET_BOOKMARKS = some r2
      ∧ r2.code = VLC_SUCCESS
      ∧ r2.out.pi_bkmk = (empty_state.pp_bookmark.length : Int) + 1
      ∧ r2.out.ppp_bkmk = some (empty_state.pp_bookmark ++ [last])
      ∧ last.psz_name = intro_point.psz_name
      ∧ last.i_time_offset = intro_point.i_time_offset
      ∧ r2.st.pp_bookmark = r.st.pp_bookmark
      ∧ ∀ (al3 : Alloc) (c3 : Caller), ∃ r3,
          input_vaControl sample_ext al3 r2.st c3 .INPUT_GET_BOOKMARKS = some r3
          ∧ r3.code = VLC_SUCCESS
          ∧ r3.out.ppp_bkmk = some (empty_state.pp_bookmark ++ [last]) :=
  ⟨by decide,
   add_bookmark_then_get_bookmarks sample_ext all_ok all_ok empty_state blank_caller blank_caller
    intro_point (by decide)⟩

/-- C2: with an index at or past the end, `INPUT_CHANGE_BOOKMARK` and `INPUT_DEL_BOOKMARK`
return `VLC_EGENERIC` and the bookmark collection is exactly the one before the call. -/
theorem change_del_bookmark_past_end (x : Ext) (al : Alloc) (s : State) (c : Caller)
    (b : seekpoint_t) (i : Int) (h : (s.pp_bookmark.length : Int) ≤ i) :
    (∃ r, input_vaControl x al s c (.INPUT_CHANGE_BOOKMARK b i) = some r
        ∧ r.code = VLC_EGENERIC ∧ r.st.pp_bookmark = s.pp_bookmark)
    ∧ (∃ r, input_vaControl x al s c (.INPUT_DEL_BOOKMARK i) = some r
        ∧ r.code = VLC_EGENERIC ∧ r.st.pp_bookmark = s.pp_bookmark) := by
  have hlt : ¬ i < (s.pp_bookmark.length : Int) := not_lt.mpr h
  constructor
  · exact ⟨⟨VLC_EGENERIC, UpdateBookmarksOption x al s, c⟩,
      by simp only [input_vaControl, hlt, if_false], rfl,
      UpdateBookmarksOption_pp_bookmark x al s⟩
  · exact ⟨⟨VLC_EGENERIC, s, c⟩, by simp only [input_vaControl, hlt, if_false], rfl, rfl⟩

/-- Witness of C2: index 1 on a collection of one bookmark. -/
theorem change_del_bookmark_past_end_witness :
    (∃ r, input_vaControl sample_ext all_ok one_bookmark_state blank_caller
          (.INPUT_CHANGE_BOOKMARK unnamed_point 1) = some r
        ∧ r.code = VLC_EGENERIC ∧ r.st.pp_bookmark = one_bookmark_state.pp_bookmark)
    ∧ (∃ r, input_vaControl sample_ext all_ok one_bookmark_state blank_caller
          (.INPUT_DEL_BOOKMARK 1) = some r
        ∧ r.code = VLC_EGENERIC ∧ r.st.pp_bookmark = one_bookmark_state.pp_bookmark) :=
  change_del_bookmark_past_end sample_ext all_ok one_bookmark_state blank_caller unnamed_point 1
    (by decide)

theorem aref_neg {α : Type} (a : List α) (n : Nat) : aref a (-((n : Int) + 1)) = none := by
  have h : ¬ (0 : Int) ≤ -((n : Int) + 1) := by omega
  unfold aref
  rw [if_neg h]

/-- C3 (failing input): with a negative index the source test `i_bkmk < priv->i_bookmark` lets
the call through, so `INPUT_DEL_BOOKMARK` reads `pp_bookmark[i_bkmk]` before the array, and
`INPUT_CHANGE_BOOKMARK` (when the duplication succeeds) reads and writes it: the behaviour is
undefined instead of a return of `VLC_EGENERIC`. -/
theorem bookmark_negative_index_undefined (x : Ext) (al : Alloc) (s : State) (c : Caller)
    (b : seekpoint_t) (n : Nat) :
    input_vaControl x al s c (.INPUT_DEL_BOOKMARK (-((n : Int) + 1))) = none
    ∧ input_vaControl x { al with dup_ok := true } s c
        (.INPUT_CHANGE_BOOKMARK b (-((n : Int) + 1))) = none := by
  have hlt : -((n : Int) + 1) < (s.pp_bookmark.length : Int) := by omega
  constructor
  · simp only [input_vaControl, hlt, if_true, aref_neg]
  · simp only [input_vaControl, hlt, if_true, aref_neg]

/-- C6: `INPUT_GET_BOOKMARKS` returns, leaves the state as it is, and gives `VLC_EGENERIC` with a
null array and a zero count exactly when the collection is empty; for a non-empty collection it
gives `VLC_SUCCESS`, the count of the collection and copies of the bookmarks in order. -/
theorem get_bookmarks_contract (x : Ext) (al : Alloc) (s : State) (c : Caller) :
    ∃ r, input_vaControl x al s c .INPUT_GET_BOOKMARKS = some r
      ∧ r.st = s
      ∧ ((r.code = VLC_EGENERIC ∧ r.out.ppp_bkmk = none ∧ r.out.pi_bkmk = 0)
          ↔ s.pp_bookmark = [])
      ∧ (s.pp_bookmark ≠ [] →
          r.code = VLC_SUCCESS
          ∧ r.out.pi_bkmk = (s.pp_bookmark.length : Int)
          ∧ r.out.ppp_bkmk = some (s.pp_bookmark.map vlc_seekpoint_Duplicate)
          ∧ s.pp_bookmark.map vlc_seekpoint_Duplicate = s.pp_bookmark) := by
  by_cases h : s.pp_bookmark = []
  · refine ⟨⟨VLC_EGENERIC, s, { c with ppp_bkmk := none, pi_bkmk := 0 }⟩, ?_, rfl, ?_, ?_⟩
    · simp [input_vaControl, h]
    · simp [h]
    · intro h2
      exact absurd h h2
  · have hl : s.pp_bookmark.length ≠ 0 := by
      intro h0
      exact h (List.length_eq_zero.mp h0)
    refine ⟨⟨VLC_SUCCESS, s,
        { c with pi_bkmk := s.pp_bookmark.length,
                 ppp_bkmk := some (s.pp_bookmark.map vlc_seekpoint_Duplicate) }⟩, ?_, rfl, ?_, ?_⟩
    · simp [input_vaControl, hl]
    · simp [h, VLC_SUCCESS, VLC_EGENERIC]
    · intro _
      exact ⟨rfl, rfl, rfl, map_vlc_seekpoint_Duplicate _⟩

/-- Witness of C6: the listing of a collection of one bookmark. -/
theorem get_bookmarks_contract_witness :
    one_bookmark_state.pp_bookmark ≠ [] ∧
    ∃ r, input_vaControl sample_ext all_ok one_bookmark_state blank_caller
          .INPUT_GET_BOOKMARKS = some r
      ∧ r.code = VLC_SUCCESS ∧ r.out.pi_bkmk = 1 ∧ r.out.ppp_bkmk = some [intro_point] := by
  refine ⟨by decide, ?_⟩
  obtain ⟨r, hr, _, _, h⟩ :=
    get_bookmarks_contract sample_ext all_ok one_bookmark_state blank_caller
  obtain ⟨h1, h2, h3, _⟩ := h (by decide)
  exact ⟨r, hr, h1, h2, h3⟩

/-! ## Names synthesized for unnamed bookmarks -/

theorem digit_value_digitChar (k : Nat) (h : k < 10) : digit_value (Nat.digitChar k) = k := by
  interval_cases k <;> rfl

theorem toDigitsCore_value (fuel : Nat) :
    ∀ (n : Nat) (ds : List Char), n < fuel →
      digits_value (Nat.toDigitsCore 10 fuel n ds) 0 = digits_value ds n := by
  induction fuel with
  | zero => intro n ds h; omega
  | succ fuel ih =>
    intro n ds h
    have hd : digit_value (Nat.digitChar (n % 10)) = n % 10 :=
      digit_value_digitChar _ (Nat.mod_lt _ (by decide))
    by_cases h0 : n / 10 = 0
    · have hn : n % 10 = n := Nat.mod_eq_of_lt (by omega)
      rw [hn] at hd
      simp [Nat.toDigitsCore, h0, digits_value, hd, hn]
    · have hlt : n / 10 < fuel := by omega
      simp only [Nat.toDigitsCore, h0, if_false]
      rw [ih (n / 10) _ hlt]
      simp only [digits_value, List.foldl_cons, hd]
      congr 1
      omega

theorem fmt_i_injective (a b : Nat) (h : fmt_i a = fmt_i b) : a = b := by
  have hd : Nat.toDigits 10 a = Nat.toDigits 10 b := by
    have := congrArg String.data h
    simpa [fmt_i, Nat.repr] using this
  have ha := toDigitsCore_value (a + 1) a [] (Nat.lt_succ_self a)
  have hb := toDigitsCore_value (b + 1) b [] (Nat.lt_succ_self b)
  simp only [digits_value, List.foldl_nil] at ha hb
  unfold Nat.toDigits at hd
  rw [← ha, ← hb, hd]

theorem bookmark_text_injective (a b : Nat)
    (h : "Bookmark " ++ fmt_i a = "Bookmark " ++ fmt_i b) : a = b := by
  apply fmt_i_injective
  have := congrArg String.data h
  simp only [String.data_append] at this
  exact String.ext (List.append_cancel_left this)

theorem add_bookmark_step (x : Ext) (al : Alloc) (s : State) (c : Caller) (b : seekpoint_t)
    (r : Ret) (h : input_vaControl x al s c (.INPUT_ADD_BOOKMARK b) = some r) :
    (auto_name_of (.INPUT_ADD_BOOKMARK b) r = []
        ∧ s.pp_bookmark.length ≤ r.st.pp_bookmark.length)
    ∨ (auto_name_of (.INPUT_ADD_BOOKMARK b) r = ["Bookmark " ++ fmt_i s.pp_bookmark.length]
        ∧ r.st.pp_bookmark.length = s.pp_bookmark.length + 1) := by
  cases hb : b.psz_name with
  | some n =>
    left
    simp only [input_vaControl, bookmark_name, vlc_seekpoint_Duplicate, hb] at h
    rw [← Option.some.inj h]
    simp [auto_name_of, hb, UpdateBookmarksOption_pp_bookmark, TAB_APPEND]
  | none =>
    by_cases ha : al.asprintf_ok = true
    · right
      simp only [input_vaControl, bookmark_name, vlc_seekpoint_Duplicate, hb, ha, if_true] at h
      rw [← Option.some.inj h]
      simp [auto_name_of, hb, UpdateBookmarksOption_pp_bookmark, VLC_SUCCESS, TAB_APPEND]
    · left
      simp only [input_vaControl, bookmark_name, vlc_seekpoint_Duplicate, hb, ha] at h
      rw [← Option.some.inj h]
      simp [auto_name_of, hb, UpdateBookmarksOption_pp_bookmark, VLC_SUCCESS, VLC_EGENERIC]

theorem change_bookmark_step (x : Ext) (al : Alloc) (s : State) (c : Caller) (b : seekpoint_t)
    (i : Int) (r : Ret) (h : input_vaControl x al s c (.INPUT_CHANGE_BOOKMARK b i) = some r) :
    r.st.pp_bookmark.length = s.pp_bookmark.length := by
  simp only [input_vaControl] at h
  split at h
  · split at h
    · split at h
      · exact absurd h (by simp)
      · rw [← Option.some.inj h]
        simp [UpdateBookmarksOption_pp_bookmark]
    · rw [← Option.some.inj h]
      simp [UpdateBookmarksOption_pp_bookmark]
  · rw [← Option.some.inj h]
    simp [UpdateBookmarksOption_pp_bookmark]

theorem add_or_change_step (x : Ext) (al : Alloc) (s : State) (c : Caller) (q : Query) (r : Ret)
    (hq : is_add_or_change q = true) (h : input_vaControl x al s c q = some r) :
    (auto_name_of q r = [] ∧ s.pp_bookmark.length ≤ r.st.pp_bookmark.length)
    ∨ (auto_name_of q r = ["Bookmark " ++ fmt_i s.pp_bookmark.length]
        ∧ r.st.pp_bookmark.length = s.pp_bookmark.length + 1) := by
  cases q <;> simp only [is_add_or_change] at hq <;> try exact absurd hq (by decide)
  · exact add_bookmark_step x al s c _ r h
  · left
    exact ⟨rfl, le_of_eq (change_bookmark_step x al s c _ _ r h).symm⟩

theorem auto_names_form (x : Ext) (run : List (Alloc × Query)) :
    ∀ (s : State) (c : Caller), (∀ p ∈ run, is_add_or_change p.2 = true) →
      ∀ name ∈ auto_names x s c run,
        ∃ n, s.pp_bookmark.length ≤ n ∧ name = "Bookmark " ++ fmt_i n := by
  induction run with
  | nil => intro s c _ name hn; simp [auto_names] at hn
  | cons p rest ih =>
    intro s c hall name hn
    obtain ⟨al, q⟩ := p
    have hq : is_add_or_change q = true := hall (al, q) (List.mem_cons_self _ _)
    have hrest : ∀ p ∈ rest, is_add_or_change p.2 = true :=
      fun p hp => hall p (List.mem_cons_of_mem _ hp)
    simp only [auto_names] at hn
    cases hr : input_vaControl x al s c q with
    | none => simp [hr] at hn
    | some r =>
      simp only [hr, List.mem_append] at hn
      rcases add_or_change_step x al s c q r hq hr with ⟨h1, h2⟩ | ⟨h1, h2⟩
      · rcases hn with hn | hn
        · simp [h1] at hn
        · obtain ⟨n, hle, hname⟩ := ih r.st r.out hrest name hn
          exact ⟨n, le_trans h2 hle, hname⟩
      · rcases hn with hn | hn
        · rw [h1, List.mem_singleton] at hn
          exact ⟨_, le_refl _, hn⟩
        · obtain ⟨n, hle, hname⟩ := ih r.st r.out hrest name hn
          exact ⟨n, by omega, hname⟩

/-- C4 as stated fails: from the empty collection, adding an unnamed bookmark, deleting it and
adding an unnamed bookmark again gives the name `Bookmark 0` twice (the number printed is the
current count `i_bookmark`, which the deletion lowers). -/
theorem auto_names_repeat_after_delete :
    empty_state.pp_bookmark = []
    ∧ (∀ p ∈ add_del_add, is_bookmark_query p.2 = true)
    ∧ auto_names sample_ext empty_state blank_caller add_del_add = ["Bookmark 0", "Bookmark 0"]
    ∧ ¬ (auto_names sample_ext empty_state blank_caller add_del_add).Nodup := by
  decide

/-- C4 (amended): along every run made of `INPUT_ADD_BOOKMARK` and `INPUT_CHANGE_BOOKMARK`
queries only, from any state, the names synthesized for the unnamed bookmarks are pairwise
different, each being `Bookmark N` with `N` the count of bookmarks stored when it was added. -/
theorem auto_names_nodup (x : Ext) (run : List (Alloc × Query)) :
    ∀ (s : State) (c : Caller), (∀ p ∈ run, is_add_or_change p.2 = true) →
      (auto_names x s c run).Nodup
      ∧ ∀ name ∈ auto_names x s c run,
          ∃ n, s.pp_bookmark.length ≤ n ∧ name = "Bookmark " ++ fmt_i n := by
  induction run with
  | nil => intro s c _; simp [auto_names]
  | cons p rest ih =>
    intro s c hall
    refine ⟨?_, auto_names_form x (p :: rest) s c hall⟩
    obtain ⟨al, q⟩ := p
    have hq : is_add_or_change q = true := hall (al, q) (List.mem_cons_self _ _)
    have hrest : ∀ p ∈ rest, is_add_or_change p.2 = true :=
      fun p hp => hall p (List.mem_cons_of_mem _ hp)
    simp only [auto_names]
    cases hr : input_vaControl x al s c q with
    | none => simp
    | some r =>
      simp only []
      rcases add_or_change_step x al s c q r hq hr with ⟨h1, _⟩ | ⟨h1, h2⟩
      · rw [h1, List.nil_append]
        exact (ih r.st r.out hrest).1
      · rw [h1, List.singleton_append, List.nodup_cons]
        refine ⟨?_, (ih r.st r.out hrest).1⟩
        intro hmem
        obtain ⟨n, hle, hname⟩ := auto_names_form x rest r.st r.out hrest _ hmem
        have := bookmark_text_injective _ _ hname
        omega

/-- Witness of C4 (amended): a run of an add, a change and an add. -/
theorem auto_names_nodup_witness :
    (∀ p ∈ add_change_add, is_add_or_change p.2 = true)
    ∧ (auto_names sample_ext empty_state blank_caller add_change_add).Nodup
    ∧ auto_names sample_ext empty_state blank_caller add_change_add
        = ["Bookmark 0", "Bookmark 1"] :=
  ⟨by decide,
   (auto_names_nodup sample_ext add_change_add empty_state blank_caller (by decide)).1,
   by decide⟩

/-! ## The text of a time offset -/

/-- The rounded quotient is within one half of the exact one. -/
theorem round_div_bounds (a b : Nat) (hb : 0 < b) :
    2 * (round_div a b * b) ≤ 2 * a + b ∧ 2 * a ≤ 2 * (round_div a b * b) + b := by
  have hdm : b * (a / b) + a % b = a := Nat.div_add_mod a b
  have hlt : a % b < b := Nat.mod_lt a hb
  unfold round_div
  generalize a / b = q at *
  generalize a % b = r at *
  subst hdm
  split
  · constructor <;> nlinarith
  · split
    · constructor <;> nlinarith
    · split
      · constructor <;> nlinarith
      · constructor <;> nlinarith

theorem log2_floor_le (fuel : Nat) :
    ∀ (n e : Nat), n < 2 ^ (e + 1) → log2_floor fuel n ≤ e := by
  induction fuel with
  | zero =>
    intro n e _
    simp [log2_floor]
  | succ f ih =>
    intro n e h
    unfold log2_floor
    split
    · exact Nat.zero_le e
    · cases e with
      | zero => omega
      | succ e2 =>
        have hhalf : n / 2 < 2 ^ (e2 + 1) := by
          rw [Nat.div_lt_iff_lt_mul (by decide)]
          calc n < 2 ^ (e2 + 1 + 1) := h
            _ = 2 ^ (e2 + 1) * 2 := by ring
        have := ih (n / 2) e2 hhalf
        omega

/-- With enough fuel the exponent found brackets the number. -/
theorem log2_floor_spec (fuel : Nat) :
    ∀ (n : Nat), 0 < n → n < 2 ^ fuel →
      2 ^ log2_floor fuel n ≤ n ∧ n < 2 ^ (log2_floor fuel n + 1) := by
  induction fuel with
  | zero =>
    intro n h0 h
    simp at h
    omega
  | succ f ih =>
    intro n h0 h
    unfold log2_floor
    split
    · rename_i h2
      have h1 : n = 1 := by omega
      subst h1
      simp
    · rename_i h2
      have hpos : 0 < n / 2 := Nat.div_pos (by omega) (by decide)
      have hlt : n / 2 < 2 ^ f := by
        rw [Nat.div_lt_iff_lt_mul (by decide)]
        calc n < 2 ^ (f + 1) := h
          _ = 2 ^ f * 2 := by ring
      obtain ⟨h3, h4⟩ := ih (n / 2) hpos hlt
      have e1 : 2 ^ (log2_floor f (n / 2) + 1) = 2 ^ log2_floor f (n / 2) * 2 := by ring
      have e2 : 2 ^ (log2_floor f (n / 2) + 1 + 1) = 2 ^ (log2_floor f (n / 2) + 1) * 2 := by
        ring
      rw [e2]
      rw [e1] at h4 ⊢
      constructor <;> omega

theorem binary_exponent_spec (n : Nat) (h0 : 0 < n) :
    2 ^ binary_exponent n ≤ n ∧ n < 2 ^ (binary_exponent n + 1) :=
  log2_floor_spec n n h0 (Nat.lt_two_pow n)

theorem binary_exponent_CLOCK_FREQ : binary_exponent CLOCK_FREQ.toNat = 19 := by decide

theorem quotient_shift_ge (n : Nat) (h : n < 2 ^ 53) : 19 ≤ quotient_shift n := by
  have h1 : binary_exponent n ≤ 52 := log2_floor_le n n 52 h
  unfold quotient_shift
  rw [binary_exponent_CLOCK_FREQ]
  split <;> omega

/-- The significand of the quotient has 53 bits: the scale `quotient_shift` is the one of the
binary64 format. -/
theorem quotient_mantissa_normal (n : Nat) (h0 : 0 < n) (h : n < 2 ^ 64) :
    2 ^ 52 ≤ quotient_mantissa n ∧ quotient_mantissa n ≤ 2 ^ 53 := by
  obtain ⟨hlo, hhi⟩ := binary_exponent_spec n h0
  have hL : binary_exponent n ≤ 63 := log2_floor_le n n 63 h
  have hF : CLOCK_FREQ.toNat = 1000000 := by decide
  obtain ⟨a1, a2⟩ := round_div_bounds (n * 2 ^ quotient_shift n) CLOCK_FREQ.toNat (by decide)
  unfold quotient_mantissa
  have hsplit : 2 ^ (72 - binary_exponent n) * 2 ^ binary_exponent n = 2 ^ 72 := by
    rw [← Nat.pow_add]
    congr 1
    omega
  have hpos : 0 < 2 ^ (72 - binary_exponent n) := Nat.pow_pos (by decide)
  have hlo2 : 2 ^ 72 ≤ n * 2 ^ (72 - binary_exponent n) := by
    rw [← hsplit, Nat.mul_comm n]
    exact Nat.mul_le_mul_left _ hlo
  have hhi2 : n * 2 ^ (72 - binary_exponent n) < 2 ^ 73 := by
    have e : (2 : Nat) ^ 73 = 2 ^ (72 - binary_exponent n) * 2 ^ (binary_exponent n + 1) := by
      rw [← Nat.pow_add]
      congr 1
      omega
    rw [e, Nat.mul_comm n]
    exact Nat.mul_lt_mul_of_pos_left hhi hpos
  have hk : quotient_shift n
      = if 1000000 * 2 ^ 53 ≤ n * 2 ^ (72 - binary_exponent n)
        then 72 - binary_exponent n - 1 else 72 - binary_exponent n := by
    unfold quotient_shift
    rw [binary_exponent_CLOCK_FREQ, hF]
  rw [hF] at a1 a2 ⊢
  by_cases hc : 1000000 * 2 ^ 53 ≤ n * 2 ^ (72 - binary_exponent n)
  · rw [hk, if_pos hc] at a1 a2 ⊢
    have e : (2 : Nat) ^ (72 - binary_exponent n)
        = 2 ^ (72 - binary_exponent n - 1) * 2 := by
      rw [← Nat.pow_succ]
      congr 1
      omega
    rw [e] at hc hlo2 hhi2
    generalize 2 ^ (72 - binary_exponent n - 1) = K at *
    generalize round_div (n * K) 1000000 = m at *
    norm_num at hc hlo2 hhi2 ⊢
    constructor <;> nlinarith
  · rw [hk, if_neg hc] at a1 a2 ⊢
    generalize 2 ^ (72 - binary_exponent n) = K at *
    generalize round_div (n * K) 1000000 = m at *
    norm_num at hc hlo2 hhi2 ⊢
    constructor <;> nlinarith

/-- The thousandths printed are the `double` quotient rounded to the nearest thousandth. -/
theorem seconds_thousandths_near_double (t : Int) :
    |(seconds_thousandths t : ℚ) / 1000
        - (quotient_mantissa (to_double t.natAbs) : ℚ) / 2 ^ quotient_shift (to_double t.natAbs)|
      ≤ 1 / 2000 := by
  have hKpos : 0 < 2 ^ quotient_shift (to_double t.natAbs) := Nat.pow_pos (by decide)
  obtain ⟨b1, b2⟩ := round_div_bounds (1000 * quotient_mantissa (to_double t.natAbs))
    (2 ^ quotient_shift (to_double t.natAbs)) hKpos
  unfold seconds_thousandths
  have hc : ((2 ^ quotient_shift (to_double t.natAbs) : Nat) : ℚ)
      = (2 : ℚ) ^ quotient_shift (to_double t.natAbs) := by push_cast; rfl
  rw [← hc]
  generalize 2 ^ quotient_shift (to_double t.natAbs) = K at *
  generalize quotient_mantissa (to_double t.natAbs) = m at *
  generalize round_div (1000 * m) K = M at *
  have hK : (0 : ℚ) < K := by exact_mod_cast hKpos
  have c1 : (2 * (M * K) : ℚ) ≤ 2 * (1000 * m) + K := by exact_mod_cast b1
  have c2 : (2 * (1000 * m) : ℚ) ≤ 2 * (M * K) + K := by exact_mod_cast b2
  have e : (m : ℚ) = (m : ℚ) / K * K := by field_simp
  rw [e] at c1 c2
  generalize (m : ℚ) / K = d at *
  rw [abs_le]
  constructor
  · by_contra hcon
    push_neg at hcon
    have hp : 0 < (2000 * d - 2 * M - 1) * K := mul_pos (by linarith) hK
    nlinarith
  · by_contra hcon
    push_neg at hcon
    have hp : 0 < (2 * M - 2000 * d - 1) * K := mul_pos (by linarith) hK
    nlinarith

/-- For a time offset of magnitude below `2 ^ 53` the thousandths printed are within one half
of the exact number of thousandths of a second. -/
theorem seconds_thousandths_accuracy (t : Int) (h : t.natAbs < 2 ^ 53) :
    1000 * seconds_thousandths t ≤ t.natAbs + 500
    ∧ t.natAbs ≤ 1000 * seconds_thousandths t + 500 := by
  have hd : to_double t.natAbs = t.natAbs := by
    unfold to_double
    rw [if_pos h]
  unfold seconds_thousandths
  rw [hd]
  have hk := quotient_shift_ge t.natAbs h
  have hK : 2 ^ 19 ≤ 2 ^ quotient_shift t.natAbs := Nat.pow_le_pow_right (by decide) hk
  have hKpos : 0 < 2 ^ quotient_shift t.natAbs := Nat.pow_pos (by decide)
  have hF : CLOCK_FREQ.toNat = 1000000 := by decide
  obtain ⟨a1, a2⟩ := round_div_bounds (t.natAbs * 2 ^ quotient_shift t.natAbs)
    CLOCK_FREQ.toNat (by decide)
  obtain ⟨b1, b2⟩ := round_div_bounds (1000 * quotient_mantissa t.natAbs)
    (2 ^ quotient_shift t.natAbs) hKpos
  unfold quotient_mantissa at b1 b2 ⊢
  rw [hF] at a1 a2 b1 b2 ⊢
  generalize 2 ^ quotient_shift t.natAbs = K at *
  generalize round_div (1000 * round_div (t.natAbs * K) 1000000) K = M at *
  generalize round_div (t.natAbs * K) 1000000 = m at *
  generalize t.natAbs = n at *
  norm_num at hK
  constructor
  · by_contra hc
    push_neg at hc
    have := Nat.mul_le_mul_right K (Nat.succ_le_of_lt hc)
    nlinarith
  · by_contra hc
    push_neg at hc
    have := Nat.mul_le_mul_right K (Nat.succ_le_of_lt hc)
    nlinarith

/-- The same bound on the seconds: the number printed is within half a thousandth of
`offset / CLOCK_FREQ`. -/
theorem seconds_f3_accuracy (t : Int) (h : t.natAbs < 2 ^ 53) :
    |(seconds_thousandths t : ℚ) / 1000 - (t.natAbs : ℚ) / CLOCK_FREQ| ≤ 1 / 2000 := by
  obtain ⟨h1, h2⟩ := seconds_thousandths_accuracy t h
  have c1 : (1000 * seconds_thousandths t : ℚ) ≤ t.natAbs + 500 := by exact_mod_cast h1
  have c2 : (t.natAbs : ℚ) ≤ 1000 * seconds_thousandths t + 500 := by exact_mod_cast h2
  have hF : ((CLOCK_FREQ : Int) : ℚ) = 1000000 := by norm_num [CLOCK_FREQ]
  rw [hF, abs_le]
  constructor <;> linarith

/-- The three characters after the point are decimal digits, and they read as the number of
thousandths below one thousand. -/
theorem three_digits_spec (n : Nat) :
    (three_digits n).data.length = 3
    ∧ (∀ ch ∈ (three_digits n).data, ch.isDigit = true)
    ∧ digits_value (three_digits n).data 0 = n % 1000 := by
  have hdig : ∀ k, k < 10 → (Nat.digitChar k).isDigit = true := by
    intro k hk
    interval_cases k <;> rfl
  have h1 : n / 100 % 10 < 10 := Nat.mod_lt _ (by decide)
  have h2 : n / 10 % 10 < 10 := Nat.mod_lt _ (by decide)
  have h3 : n % 10 < 10 := Nat.mod_lt _ (by decide)
  refine ⟨rfl, ?_, ?_⟩
  · intro ch hch
    simp only [three_digits, List.mem_cons, List.mem_singleton, List.not_mem_nil, or_false]
      at hch
    rcases hch with e | e | e
    · rw [e]
      exact hdig _ h1
    · rw [e]
      exact hdig _ h2
    · rw [e]
      exact hdig _ h3
  · simp only [three_digits, digits_value, List.foldl_cons, List.foldl_nil,
      digit_value_digitChar _ h1, digit_value_digitChar _ h2, digit_value_digitChar _ h3]
    omega

/-! ## The three views of the bookmark collection -/

theorem is_bookmarks_option_bookmarks_option (x : Ext) (bs : List seekpoint_t) :
    is_bookmarks_option (bookmarks_option x bs) = true := by
  simp [is_bookmarks_option, bookmarks_option, String.data_append]

theorem mem_input_item_AddOption (opts : List String) (o : String) :
    o ∈ input_item_AddOption opts o := by
  unfold input_item_AddOption
  by_cases h : o ∈ opts
  · simp [h]
  · simp [h]

theorem mem_replace_of_any (v : String) (opts : List String)
    (h : opts.any is_bookmarks_option = true) :
    v ∈ opts.map (fun o => if is_bookmarks_option o then v else o) := by
  obtain ⟨o, ho, hp⟩ := List.any_eq_true.mp h
  exact List.mem_map.mpr ⟨o, ho, by simp [hp]⟩

theorem replace_eq_self_of_not_any (v : String) (opts : List String)
    (h : ¬ opts.any is_bookmarks_option = true) :
    opts.map (fun o => if is_bookmarks_option o then v else o) = opts := by
  have h2 : ∀ o ∈ opts, is_bookmarks_option o = false := by
    intro o ho
    cases hp : is_bookmarks_option o with
    | false => rfl
    | true => exact absurd (List.any_eq_true.mpr ⟨o, ho, hp⟩) h
  calc opts.map (fun o => if is_bookmarks_option o then v else o)
      = opts.map id := List.map_congr_left (fun o ho => by simp [h2 o ho])
    _ = opts := List.map_id opts

theorem replace_eq_self_of_all (v : String) (opts : List String)
    (h : ∀ o ∈ opts, is_bookmarks_option o = true → o = v) :
    opts.map (fun o => if is_bookmarks_option o then v else o) = opts := by
  calc opts.map (fun o => if is_bookmarks_option o then v else o)
      = opts.map id := List.map_congr_left (fun o ho => by
          by_cases hp : is_bookmarks_option o = true
          · simp [hp, h o ho hp]
          · simp [hp])
    _ = opts := List.map_id opts

theorem UpdateBookmarksOption_option_mem (x : Ext) (al : Alloc) (s : State)
    (hm : al.memstream_ok = true) :
    bookmarks_option x s.pp_bookmark ∈ (UpdateBookmarksOption x al s).ppsz_options := by
  rw [UpdateBookmarksOption_options]
  by_cases ho : s.ppsz_options.any is_bookmarks_option = true
  · simp only [hm, ho, if_true]
    exact mem_replace_of_any _ _ ho
  · simp only [hm, ho, if_true]
    exact mem_input_item_AddOption _ _

theorem UpdateBookmarksOption_option_only (x : Ext) (al : Alloc) (s : State)
    (hm : al.memstream_ok = true) :
    ∀ o ∈ (UpdateBookmarksOption x al s).ppsz_options,
      is_bookmarks_option o = true → o = bookmarks_option x s.pp_bookmark := by
  intro o hmem hp
  rw [UpdateBookmarksOption_options] at hmem
  by_cases ho : s.ppsz_options.any is_bookmarks_option = true
  · simp only [hm, ho, if_true] at hmem
    obtain ⟨o2, _, h2⟩ := List.mem_map.mp hmem
    by_cases hp2 : is_bookmarks_option o2 = true
    · simp only [hp2, if_true] at h2
      exact h2.symm
    · simp only [hp2] at h2
      rw [← h2] at hp
      exact absurd hp (by simpa using hp2)
  · simp only [hm, ho, if_true] at hmem
    rw [replace_eq_self_of_not_any _ _ ho] at hmem
    unfold input_item_AddOption at hmem
    have hno : ¬ is_bookmarks_option o = true ∨ o = bookmarks_option x s.pp_bookmark := by
      by_cases hin : bookmarks_option x s.pp_bookmark ∈ s.ppsz_options
      · exact absurd (List.any_eq_true.mpr
          ⟨_, hin, is_bookmarks_option_bookmarks_option x s.pp_bookmark⟩) ho
      · rw [if_neg hin] at hmem
        rcases List.mem_append.mp hmem with h1 | h1
        · left
          intro hp1
          exact ho (List.any_eq_true.mpr ⟨o, h1, hp1⟩)
        · right
          exact List.mem_singleton.mp h1
    rcases hno with h1 | h1
    · exact absurd hp h1
    · exact h1

theorem UpdateBookmarksOption_options_of_fail (x : Ext) (al : Alloc) (s : State)
    (hm : al.memstream_ok = false) :
    (UpdateBookmarksOption x al s).ppsz_options = s.ppsz_options := by
  rw [UpdateBookmarksOption_options]
  simp [hm]

theorem countP_replace (v : String) (hv : is_bookmarks_option v = true) (opts : List String) :
    (opts.map (fun o => if is_bookmarks_option o then v else o)).countP is_bookmarks_option
      = opts.countP is_bookmarks_option := by
  induction opts with
  | nil => rfl
  | cons o rest ih =>
    by_cases hp : is_bookmarks_option o = true
    · simp [List.countP_cons, hp, hv, ih]
    · simp [List.countP_cons, hp, ih]

/-- When the stream closed well and at most one option started with `bookmarks=`, exactly one
does afterwards. -/
theorem UpdateBookmarksOption_option_count (x : Ext) (al : Alloc) (s : State)
    (hm : al.memstream_ok = true) (hle : s.ppsz_options.countP is_bookmarks_option ≤ 1) :
    (UpdateBookmarksOption x al s).ppsz_options.countP is_bookmarks_option = 1 := by
  have hnew := is_bookmarks_option_bookmarks_option x s.pp_bookmark
  rw [UpdateBookmarksOption_options]
  by_cases hany : s.ppsz_options.any is_bookmarks_option = true
  · simp only [hm, hany, if_true]
    rw [countP_replace _ hnew]
    have hpos : 0 < s.ppsz_options.countP is_bookmarks_option := by
      obtain ⟨o, ho, hp⟩ := List.any_eq_true.mp hany
      exact List.countP_pos_iff.mpr ⟨o, ho, hp⟩
    omega
  · simp only [hm, hany, if_true]
    rw [replace_eq_self_of_not_any _ _ hany]
    have hnotin : bookmarks_option x s.pp_bookmark ∉ s.ppsz_options := fun hin =>
      hany (List.any_eq_true.mpr ⟨_, hin, hnew⟩)
    have hzero : s.ppsz_options.countP is_bookmarks_option = 0 := by
      rw [List.countP_eq_zero]
      intro o ho hp
      exact hany (List.any_eq_true.mpr ⟨o, ho, hp⟩)
    simp [input_item_AddOption, hnotin, List.countP_append, hzero, hnew]

theorem VLC_EGENERIC_ne_VLC_SUCCESS : VLC_EGENERIC ≠ VLC_SUCCESS := by decide

/-- A successful bookmark query ends with `UpdateBookmarksOption` on a state with the options
of the state before the call. -/
theorem bookmark_query_success (x : Ext) (al : Alloc) (s : State) (c : Caller) (q : Query)
    (r : Ret) (hq : is_bookmark_query q = true)
    (h : input_vaControl x al s c q = some r) (hok : r.code = VLC_SUCCESS) :
    ∃ s1, r.st = UpdateBookmarksOption x al s1 ∧ s1.ppsz_options = s.ppsz_options := by
  cases q <;> simp only [is_bookmark_query] at hq <;> try exact absurd hq (by decide)
  · simp only [input_vaControl] at h
    split at h
    · cases h
      exact ⟨_, rfl, rfl⟩
    · cases h
      exact absurd hok VLC_EGENERIC_ne_VLC_SUCCESS
  · simp only [input_vaControl] at h
    split at h
    · split at h
      · split at h
        · exact absurd h (by simp)
        · cases h
          exact ⟨_, rfl, rfl⟩
      · cases h
        exact absurd hok VLC_EGENERIC_ne_VLC_SUCCESS
    · cases h
      exact absurd hok VLC_EGENERIC_ne_VLC_SUCCESS
  · simp only [input_vaControl] at h
    split at h
    · split at h
      · exact absurd h (by simp)
      · cases h
        exact ⟨_, rfl, rfl⟩
    · cases h
      exact absurd hok VLC_EGENERIC_ne_VLC_SUCCESS
  · simp only [input_vaControl] at h
    cases h
    exact ⟨_, rfl, rfl⟩

/-- C5 as stated fails: when `vlc_memstream_close` does not return `VLC_SUCCESS` the source
skips the update of the options, so a successful `INPUT_ADD_BOOKMARK` leaves the option strings
without the line of the new collection. -/
theorem option_line_missing_when_stream_fails :
    ∃ r, input_vaControl libc_ext memstream_fails empty_state blank_caller
          (.INPUT_ADD_BOOKMARK intro_point) = some r
      ∧ r.code = VLC_SUCCESS
      ∧ r.st.pp_bookmark = [intro_point]
      ∧ r.st.bookmark_choices = [(0, some "intro")]
      ∧ bookmarks_option libc_ext r.st.pp_bookmark = "bookmarks=\x7bname=intro,time=2.000\x7d"
      ∧ r.st.ppsz_options = []
      ∧ bookmarks_option libc_ext r.st.pp_bookmark ∉ r.st.ppsz_options :=
  ⟨⟨VLC_SUCCESS,
      UpdateBookmarksOption libc_ext memstream_fails
        { empty_state with pp_bookmark := [intro_point] }, blank_caller⟩,
    rfl, by decide, by decide, by decide, by decide, by decide, by decide⟩

/-- C5 (amended): after a successful `INPUT_ADD_BOOKMARK`, `INPUT_CHANGE_BOOKMARK`,
`INPUT_DEL_BOOKMARK` or `INPUT_CLEAR_BOOKMARKS` the choice-list is the list of the pairs
(index, name) of the collection in order; when `vlc_memstream_close` succeeded the option
strings contain the line `bookmarks=` followed by the fragments of the collection in order,
separated by single commas; when it failed the option strings are those before the call. In
each fragment the time is the offset in seconds, `offset / CLOCK_FREQ`, written with three
decimal places: a minus sign for a negative offset, the integral part, a point and exactly
three decimal digits, which read as the thousandths of the `double` quotient rounded to the
nearest thousandth; for an offset of magnitude below `2 ^ 53` the number written is within half
a thousandth of the exact quotient. The conversion `"%.3f"` is the one of a C library with
IEEE 754 doubles (`seconds_f3`). -/
theorem bookmark_views_after_success (x : Ext) (al : Alloc) (s : State) (c : Caller) (q : Query)
    (r : Ret) (hlibc : x.fmt_f3 = seconds_f3) (hq : is_bookmark_query q = true)
    (h : input_vaControl x al s c q = some r) (hok : r.code = VLC_SUCCESS) :
    r.st.bookmark_choices = choice_list r.st.pp_bookmark
    ∧ (al.memstream_ok = true → bookmarks_option x r.st.pp_bookmark ∈ r.st.ppsz_options)
    ∧ (al.memstream_ok = false → r.st.ppsz_options = s.ppsz_options)
    ∧ (∀ sp ∈ r.st.pp_bookmark,
        fragment x sp
          = "\x7bname=" ++ fmt_s x sp.psz_name ++ ",time="
            ++ ((if sp.i_time_offset < 0 then "-" else "")
                ++ Nat.repr (seconds_thousandths sp.i_time_offset / 1000) ++ "."
                ++ three_digits (seconds_thousandths sp.i_time_offset % 1000))
            ++ "\x7d"
        ∧ (three_digits (seconds_thousandths sp.i_time_offset % 1000)).data.length = 3
        ∧ (∀ ch ∈ (three_digits (seconds_thousandths sp.i_time_offset % 1000)).data,
            ch.isDigit = true)
        ∧ digits_value (three_digits (seconds_thousandths sp.i_time_offset % 1000)).data 0
            = seconds_thousandths sp.i_time_offset % 1000
        ∧ |(seconds_thousandths sp.i_time_offset : ℚ) / 1000
            - (quotient_mantissa (to_double sp.i_time_offset.natAbs) : ℚ)
                / 2 ^ quotient_shift (to_double sp.i_time_offset.natAbs)| ≤ 1 / 2000
        ∧ (sp.i_time_offset.natAbs < 2 ^ 53 →
            |(seconds_thousandths sp.i_time_offset : ℚ) / 1000
              - (sp.i_time_offset.natAbs : ℚ) / CLOCK_FREQ| ≤ 1 / 2000)) := by
  obtain ⟨s1, hs1, hopt⟩ := bookmark_query_success x al s c q r hq h hok
  rw [hs1]
  refine ⟨?_, ?_, ?_, ?_⟩
  · rw [UpdateBookmarksOption_choices, UpdateBookmarksOption_pp_bookmark]
  · intro hm
    rw [UpdateBookmarksOption_pp_bookmark]
    exact UpdateBookmarksOption_option_mem x al s1 hm
  · intro hm
    rw [UpdateBookmarksOption_options_of_fail x al s1 hm, hopt]
  · intro sp _
    obtain ⟨d1, d2, d3⟩ := three_digits_spec (seconds_thousandths sp.i_time_offset % 1000)
    refine ⟨?_, d1, d2, ?_, seconds_thousandths_near_double sp.i_time_offset,
      seconds_f3_accuracy sp.i_time_offset⟩
    · unfold fragment
      rw [hlibc]
      rfl
    · rw [d3]
      exact Nat.mod_eq_of_lt (Nat.mod_lt _ (by decide))

/-- Witness of C5 (amended): a bookmark at 1.234567 seconds added to the empty collection. -/
theorem bookmark_views_after_success_witness :
    libc_ext.fmt_f3 = seconds_f3
    ∧ is_bookmark_query (.INPUT_ADD_BOOKMARK fraction_point) = true
    ∧ (∃ r, input_vaControl libc_ext all_ok empty_state blank_caller
              (.INPUT_ADD_BOOKMARK fraction_point) = some r
          ∧ r.code = VLC_SUCCESS
          ∧ r.st.bookmark_choices = choice_list r.st.pp_bookmark
          ∧ bookmarks_option libc_ext r.st.pp_bookmark ∈ r.st.ppsz_options
          ∧ r.st.ppsz_options = ["bookmarks=\x7bname=mid,time=1.235\x7d"]) :=
  ⟨rfl, by decide,
   ⟨VLC_SUCCESS,
      UpdateBookmarksOption libc_ext all_ok { empty_state with pp_bookmark := [fraction_point] },
      blank_caller⟩,
    rfl, by decide,
    (bookmark_views_after_success libc_ext all_ok empty_state blank_caller
      (.INPUT_ADD_BOOKMARK fraction_point) _ rfl (by decide) rfl (by decide)).1,
    (bookmark_views_after_success libc_ext all_ok empty_state blank_caller
      (.INPUT_ADD_BOOKMARK fraction_point) _ rfl (by decide) rfl (by decide)).2.1
        (by decide),
    by decide⟩

/-! ## Clearing the bookmarks -/

theorem bookmarks_option_nil (x : Ext) : bookmarks_option x [] = "bookmarks=" := by
  simp [bookmarks_option, entries]

/-- C7 as stated fails: when `vlc_memstream_close` does not return `VLC_SUCCESS`,
`INPUT_CLEAR_BOOKMARKS` returns `VLC_SUCCESS` and empties the collection but the options keep
the line of the former collection. -/
theorem clear_keeps_option_when_stream_fails :
    ∃ r, input_vaControl libc_ext memstream_fails stored_option_state blank_caller
          .INPUT_CLEAR_BOOKMARKS = some r
      ∧ r.code = VLC_SUCCESS
      ∧ r.st.pp_bookmark = []
      ∧ r.st.ppsz_options = ["bookmarks=\x7bname=intro,time=2.000\x7d"]
      ∧ "bookmarks=" ∉ r.st.ppsz_options :=
  ⟨⟨VLC_SUCCESS,
      UpdateBookmarksOption libc_ext memstream_fails
        { stored_option_state with pp_bookmark := [] }, blank_caller⟩,
    rfl, by decide, by decide, by decide, by decide⟩

/-- C7 (amended): `INPUT_CLEAR_BOOKMARKS` returns `VLC_SUCCESS` in every state and leaves the
collection and the choice-list empty; when `vlc_memstream_close` failed it leaves the options as
they were. When at most one option started with `bookmarks=` before the clear: if
`vlc_memstream_close` succeeded the options contain `bookmarks=` and it is the only option that
starts with `bookmarks=`; a second clear returns `VLC_SUCCESS` too and leaves the collection and
the choice-list empty, and, if `vlc_memstream_close` succeeded in the first clear or failed in
the second, the options as the first clear left them. -/
theorem clear_bookmarks_contract (x : Ext) (al al2 : Alloc) (s : State) (c c2 : Caller) :
    ∃ r,
      input_vaControl x al s c .INPUT_CLEAR_BOOKMARKS = some r
      ∧ r.code = VLC_SUCCESS ∧ r.st.pp_bookmark = [] ∧ r.st.bookmark_choices = []
      ∧ (al.memstream_ok = false → r.st.ppsz_options = s.ppsz_options)
      ∧ (s.ppsz_options.countP is_bookmarks_option ≤ 1 →
          (al.memstream_ok = true →
            "bookmarks=" ∈ r.st.ppsz_options
            ∧ r.st.ppsz_options.countP is_bookmarks_option = 1
            ∧ ∀ o ∈ r.st.ppsz_options, is_bookmarks_option o = true → o = "bookmarks=")
          ∧ r.st.ppsz_options.countP is_bookmarks_option ≤ 1
          ∧ ∃ r2,
              input_vaControl x al2 r.st c2 .INPUT_CLEAR_BOOKMARKS = some r2
              ∧ r2.code = VLC_SUCCESS ∧ r2.st.pp_bookmark = [] ∧ r2.st.bookmark_choices = []
              ∧ (al.memstream_ok = true ∨ al2.memstream_ok = false →
                  r2.st.ppsz_options = r.st.ppsz_options)) := by
  refine ⟨⟨VLC_SUCCESS, UpdateBookmarksOption x al { s with pp_bookmark := [] }, c⟩,
    rfl, rfl, ?_, ?_, ?_, ?_⟩
  · rw [UpdateBookmarksOption_pp_bookmark]
  · rw [UpdateBookmarksOption_choices]
    rfl
  · intro hm
    exact UpdateBookmarksOption_options_of_fail x al _ hm
  · intro hle
    have hfirst : al.memstream_ok = true →
        "bookmarks=" ∈ (UpdateBookmarksOption x al { s with pp_bookmark := [] }).ppsz_options
        ∧ (UpdateBookmarksOption x al { s with pp_bookmark := [] }).ppsz_options.countP
            is_bookmarks_option = 1
        ∧ ∀ o ∈ (UpdateBookmarksOption x al { s with pp_bookmark := [] }).ppsz_options,
            is_bookmarks_option o = true → o = "bookmarks=" := by
      intro hm
      have hmem := UpdateBookmarksOption_option_mem x al { s with pp_bookmark := [] } hm
      have honly := UpdateBookmarksOption_option_only x al { s with pp_bookmark := [] } hm
      simp only [bookmarks_option_nil] at hmem honly
      exact ⟨hmem, UpdateBookmarksOption_option_count x al { s with pp_bookmark := [] } hm hle,
        honly⟩
    refine ⟨hfirst, ?_, ?_⟩
    · show (UpdateBookmarksOption x al { s with pp_bookmark := [] }).ppsz_options.countP
          is_bookmarks_option ≤ 1
      by_cases hm : al.memstream_ok = true
      · exact le_of_eq (hfirst hm).2.1
      · rw [UpdateBookmarksOption_options_of_fail x al _ (by simpa using hm)]
        exact hle
    · refine ⟨⟨VLC_SUCCESS,
          UpdateBookmarksOption x al2
            { UpdateBookmarksOption x al { s with pp_bookmark := [] } with pp_bookmark := [] },
          c2⟩, rfl, rfl, ?_, ?_, ?_⟩
      · rw [UpdateBookmarksOption_pp_bookmark]
      · rw [UpdateBookmarksOption_choices]
        rfl
      · intro hor
        show (UpdateBookmarksOption x al2 _).ppsz_options = _
        by_cases hm2 : al2.memstream_ok = true
        · have hm : al.memstream_ok = true := by
            rcases hor with h1 | h1
            · exact h1
            · rw [hm2] at h1
              exact absurd h1 (by decide)
          obtain ⟨hmem, _, honly⟩ := hfirst hm
          rw [UpdateBookmarksOption_options]
          have hany : (UpdateBookmarksOption x al { s with pp_bookmark := [] }).ppsz_options.any
              is_bookmarks_option = true :=
            List.any_eq_true.mpr ⟨_, hmem, by decide⟩
          simp only [hm2, hany, if_true, bookmarks_option_nil]
          exact replace_eq_self_of_all _ _ honly
        · exact UpdateBookmarksOption_options_of_fail x al2 _ (by simpa using hm2)

/-- Witness of C7 (amended): clearing twice a state with one bookmark and its option line. -/
theorem clear_bookmarks_contract_witness :
    stored_option_state.ppsz_options.countP is_bookmarks_option ≤ 1
    ∧ all_ok.memstream_ok = true
    ∧ ∃ r r2,
        input_vaControl libc_ext all_ok stored_option_state blank_caller
            .INPUT_CLEAR_BOOKMARKS = some r
        ∧ r.code = VLC_SUCCESS ∧ r.st.pp_bookmark = [] ∧ r.st.bookmark_choices = []
        ∧ "bookmarks=" ∈ r.st.ppsz_options
        ∧ r.st.ppsz_options.countP is_bookmarks_option = 1
        ∧ input_vaControl libc_ext all_ok r.st blank_caller .INPUT_CLEAR_BOOKMARKS = some r2
        ∧ r2.code = VLC_SUCCESS
        ∧ r2.st.ppsz_options = r.st.ppsz_options := by
  refine ⟨by decide, rfl, ?_⟩
  obtain ⟨r, h1, h2, h3, h4, _, h6⟩ :=
    clear_bookmarks_contract libc_ext all_ok all_ok stored_option_state blank_caller
      blank_caller
  obtain ⟨ha, _, r2, hb1, hb2, _, _, hb5⟩ := h6 (by decide)
  obtain ⟨ha1, ha2, _⟩ := ha rfl
  exact ⟨r, r2, h1, h2, h3, h4, ha1, ha2, hb1, hb2, hb5 (Or.inl rfl)⟩

/-! ## Output parameters on failure -/

/-- C8 as stated fails: on a state without titles and without audio output,
`INPUT_GET_TITLE_INFO`, `INPUT_GET_SEEKPOINTS` and `INPUT_GET_AOUT` return `VLC_EGENERIC` and
their handle output still holds the value it had before the call, which is neither a result of
the query nor the null handle. -/
theorem outputs_left_on_failure :
    empty_state.title = [] ∧ empty_state.aout = none
    ∧ (∃ r, input_vaControl sample_ext all_ok empty_state stale_caller .INPUT_GET_TITLE_INFO
              = some r
          ∧ r.code = VLC_EGENERIC ∧ r.out.p_title = some sample_title)
    ∧ (∃ r, input_vaControl sample_ext all_ok empty_state stale_caller .INPUT_GET_SEEKPOINTS
              = some r
          ∧ r.code = VLC_EGENERIC ∧ r.out.pp_seekpoints = some [intro_point])
    ∧ (∃ r, input_vaControl sample_ext all_ok empty_state stale_caller .INPUT_GET_AOUT = some r
          ∧ r.code = VLC_EGENERIC ∧ r.out.pp_aout = some 7) :=
  ⟨rfl, rfl, ⟨⟨VLC_EGENERIC, empty_state, stale_caller⟩, rfl, rfl, rfl⟩,
    ⟨⟨VLC_EGENERIC, empty_state, stale_caller⟩, rfl, rfl, rfl⟩,
    ⟨⟨VLC_EGENERIC, empty_state, stale_caller⟩, rfl, rfl, rfl⟩⟩

/-- C8 (amended): when the call returns a code other than `VLC_SUCCESS`,
`INPUT_GET_BOOKMARKS`, `INPUT_GET_ATTACHMENTS`, `INPUT_GET_ATTACHMENT` and `INPUT_GET_VOUTS` have
written the empty value (null handle, zero count) to each of their outputs. -/
theorem outputs_on_failure (x : Ext) (al : Alloc) (s : State) (c : Caller) (r : Ret)
    (hfail : r.code ≠ VLC_SUCCESS) :
    (input_vaControl x al s c .INPUT_GET_BOOKMARKS = some r →
        r.out.ppp_bkmk = none ∧ r.out.pi_bkmk = 0)
    ∧ (input_vaControl x al s c .INPUT_GET_ATTACHMENTS = some r →
        r.out.ppp_attachment = none ∧ r.out.pi_attachment = 0)
    ∧ (∀ psz_name, input_vaControl x al s c (.INPUT_GET_ATTACHMENT psz_name) = some r →
        r.out.pp_attachment = none)
    ∧ (input_vaControl x al s c .INPUT_GET_VOUTS = some r →
        r.out.ppp_vout = none ∧ r.out.pi_vout = 0) := by
  refine ⟨?_, ?_, ?_, ?_⟩
  · intro h
    simp only [input_vaControl] at h
    split at h
    · cases h
      exact absurd rfl hfail
    · cases h
      exact ⟨rfl, rfl⟩
  · intro h
    simp only [input_vaControl] at h
    split at h
    · cases h
      exact ⟨rfl, rfl⟩
    · cases h
      exact absurd rfl hfail
  · intro psz_name h
    simp only [input_vaControl] at h
    split at h
    · cases h
      exact absurd rfl hfail
    · cases h
      rfl
  · intro h
    simp only [input_vaControl] at h
    split at h
    · rename_i hle
      cases h
      show (input_resource_HoldVouts s c).ppp_vout = none
        ∧ (input_resource_HoldVouts s c).pi_vout = 0
      unfold input_resource_HoldVouts at hle ⊢
      cases hv : s.vouts with
      | nil => simp
      | cons a l => simp [hv] at hle
    · cases h
      exact absurd rfl hfail

/-- Witness of C8 (amended): the listing of an empty collection overwrites the handle and the
count the caller variables held. -/
theorem outputs_on_failure_witness :
    VLC_EGENERIC ≠ VLC_SUCCESS
    ∧ stale_caller.ppp_bkmk = some [intro_point] ∧ stale_caller.pi_bkmk = 1
    ∧ ∃ r, input_vaControl sample_ext all_ok empty_state stale_caller .INPUT_GET_BOOKMARKS
          = some r
        ∧ r.code = VLC_EGENERIC ∧ r.out.ppp_bkmk = none ∧ r.out.pi_bkmk = 0 :=
  ⟨by decide, rfl, rfl,
    ⟨VLC_EGENERIC, empty_state, { stale_caller with ppp_bkmk := none, pi_bkmk := 0 }⟩, rfl, rfl,
    (outputs_on_failure sample_ext all_ok empty_state stale_caller
      ⟨VLC_EGENERIC, empty_state, { stale_caller with ppp_bkmk := none, pi_bkmk := 0 }⟩
      (by decide)).1 rfl⟩

/-- On a failure `INPUT_GET_TITLE_INFO` and `INPUT_GET_SEEKPOINTS` have written only the resolved
title offset, and `INPUT_GET_AOUT` nothing: the handle output is the one before the call. -/
theorem outputs_kept_on_failure (x : Ext) (al : Alloc) (s : State) (c : Caller) (r : Ret)
    (hfail : r.code ≠ VLC_SUCCESS) :
    (input_vaControl x al s c .INPUT_GET_TITLE_INFO = some r →
        r.out.p_title = c.p_title
        ∧ r.out.pi_req_title_offset
            = if c.pi_req_title_offset < 0 then toInt32 s.var_title else c.pi_req_title_offset)
    ∧ (input_vaControl x al s c .INPUT_GET_SEEKPOINTS = some r →
        r.out.pp_seekpoints = c.pp_seekpoints
        ∧ r.out.pi_title_to_fetch
            = if c.pi_title_to_fetch < 0 then toInt32 s.var_title else c.pi_title_to_fetch)
    ∧ (input_vaControl x al s c .INPUT_GET_AOUT = some r → r.out.pp_aout = c.pp_aout) := by
  refine ⟨?_, ?_, ?_⟩
  · intro h
    by_cases hneg : c.pi_req_title_offset < 0
    · simp only [input_vaControl, hneg, if_true] at h
      split at h
      · split at h
        · exact absurd h (by simp)
        · cases h
          exact absurd rfl hfail
      · cases h
        simp [hneg]
    · simp only [input_vaControl, hneg, if_false] at h
      split at h
      · split at h
        · exact absurd h (by simp)
        · cases h
          exact absurd rfl hfail
      · cases h
        simp [hneg]
  · intro h
    by_cases hneg : c.pi_title_to_fetch < 0
    · simp only [input_vaControl, hneg, if_true] at h
      split at h
      · cases h
        simp [hneg]
      · split at h
        · exact absurd h (by simp)
        · split at h
          · cases h
            exact absurd rfl hfail
          · cases h
            exact absurd rfl hfail
    · simp only [input_vaControl, hneg, if_false] at h
      split at h
      · cases h
        simp [hneg]
      · split at h
        · exact absurd h (by simp)
        · split at h
          · cases h
            exact absurd rfl hfail
          · cases h
            exact absurd rfl hfail
  · intro h
    simp only [input_vaControl] at h
    split at h
    · cases h
      rfl
    · cases h
      exact absurd rfl hfail


/-! ## Validation before a command is queued -/

/-- C9: `INPUT_ADD_SLAVE` with a null path, or with a type that is neither audio nor subtitle,
returns `VLC_EGENERIC` and leaves the state, hence the control queue, as it is; with a path, a
type among the two and a successful `input_item_slave_New` it returns `VLC_SUCCESS` and the
queue is the former queue followed by one `INPUT_CONTROL_ADD_SLAVE` command whose slave has the
path, the type, the user priority and the forced flag of the call. -/
theorem add_slave_validation (x : Ext) (al : Alloc) (s : State) (c : Caller) (type : Int)
    (psz : Option String) (b_bool : Bool) :
    ((psz = none ∨ (type ≠ SLAVE_TYPE_AUDIO ∧ type ≠ SLAVE_TYPE_SPU)) →
        ∃ r, input_vaControl x al s c (.INPUT_ADD_SLAVE type psz b_bool) = some r
          ∧ r.code = VLC_EGENERIC ∧ r.st = s ∧ r.st.control = s.control)
    ∧ (∀ uri, psz = some uri → (type = SLAVE_TYPE_AUDIO ∨ type = SLAVE_TYPE_SPU) →
        al.slave_ok = true →
        ∃ r, input_vaControl x al s c (.INPUT_ADD_SLAVE type psz b_bool) = some r
          ∧ r.code = VLC_SUCCESS
          ∧ r.st.control = s.control ++
              [{ i_type := input_control_e.INPUT_CONTROL_ADD_SLAVE,
                 val := vlc_value_t.p_slave
                   { psz_uri := uri, i_type := type, i_priority := SLAVE_PRIORITY_USER,
                     b_forced := b_bool } }]) := by
  constructor
  · intro h
    refine ⟨⟨VLC_EGENERIC, s, c⟩, ?_, rfl, rfl, rfl⟩
    cases psz with
    | none => simp only [input_vaControl]
    | some uri =>
      have ht : type ≠ SLAVE_TYPE_SPU ∧ type ≠ SLAVE_TYPE_AUDIO := by
        rcases h with h | h
        · exact absurd h (by simp)
        · exact ⟨h.2, h.1⟩
      simp only [input_vaControl, ht, ne_eq, not_false_eq_true, and_self, if_true]
  · intro uri hp ht hs
    subst hp
    have ht2 : ¬ (type ≠ SLAVE_TYPE_SPU ∧ type ≠ SLAVE_TYPE_AUDIO) := by
      rintro ⟨h1, h2⟩
      rcases ht with h | h
      · exact h2 h
      · exact h1 h
    refine ⟨⟨VLC_SUCCESS,
      input_ControlPush s input_control_e.INPUT_CONTROL_ADD_SLAVE
        (vlc_value_t.p_slave
          { psz_uri := uri, i_type := type, i_priority := SLAVE_PRIORITY_USER,
            b_forced := b_bool }), c⟩, ?_, rfl, rfl⟩
    simp only [input_vaControl, input_item_slave_New, ht2, hs, if_false, if_true]

/-- Witness of C9: a subtitle slave is queued; a slave of type 2 is refused. -/
theorem add_slave_validation_witness :
    (∃ r, input_vaControl sample_ext all_ok empty_state blank_caller
            (.INPUT_ADD_SLAVE 2 (some "a.srt") true) = some r
        ∧ r.code = VLC_EGENERIC ∧ r.st = empty_state ∧ r.st.control = empty_state.control)
    ∧ (∃ r, input_vaControl sample_ext all_ok empty_state blank_caller
            (.INPUT_ADD_SLAVE SLAVE_TYPE_SPU (some "a.srt") true) = some r
        ∧ r.code = VLC_SUCCESS
        ∧ r.st.control = empty_state.control ++
            [{ i_type := input_control_e.INPUT_CONTROL_ADD_SLAVE,
               val := vlc_value_t.p_slave
                 { psz_uri := "a.srt", i_type := SLAVE_TYPE_SPU,
                   i_priority := SLAVE_PRIORITY_USER, b_forced := true } }]) :=
  ⟨(add_slave_validation sample_ext all_ok empty_state blank_caller 2 (some "a.srt") true).1
      (Or.inr (by decide)),
   (add_slave_validation sample_ext all_ok empty_state blank_caller SLAVE_TYPE_SPU
      (some "a.srt") true).2 "a.srt" rfl (Or.inr rfl) rfl⟩

theorem string_data_nil_iff (p : String) : p.data = [] ↔ p = "" := by
  constructor
  · intro h
    exact String.ext h
  · intro h
    rw [h]

/-- C10: `INPUT_ADD_SUBTITLE` returns; it returns `VLC_EGENERIC` with the queue as it was
exactly when the path is null or empty, or the select flag is set and `subtitles_Filter` rejects
the path, and the whole state is then unchanged; in every other case it returns `VLC_SUCCESS`
and the queue is the former queue followed by one `INPUT_CONTROL_ADD_SUBTITLE` command that
carries the path. -/
theorem add_subtitle_validation (x : Ext) (al : Alloc) (s : State) (c : Caller)
    (psz : Option String) (b_bool : Bool) :
    ∃ r, input_vaControl x al s c (.INPUT_ADD_SUBTITLE psz b_bool) = some r
      ∧ ((r.code = VLC_EGENERIC ∧ r.st.control = s.control)
          ↔ (psz = none ∨ psz = some ""
              ∨ (b_bool = true ∧ ∃ p, psz = some p ∧ x.subtitles_Filter p = false)))
      ∧ (r.code = VLC_EGENERIC → r.st = s)
      ∧ (r.code ≠ VLC_EGENERIC →
          r.code = VLC_SUCCESS
          ∧ ∃ path, psz = some path
              ∧ r.st.control = s.control ++
                  [{ i_type := input_control_e.INPUT_CONTROL_ADD_SUBTITLE,
                     val := vlc_value_t.psz_string path }]) := by
  cases psz with
  | none =>
    refine ⟨⟨VLC_EGENERIC, s, c⟩, rfl, ?_, fun _ => rfl, fun h => absurd rfl h⟩
    simp
  | some path =>
    by_cases he : path.data = []
    · refine ⟨⟨VLC_EGENERIC, s, c⟩, ?_, ?_, fun _ => rfl, fun h => absurd rfl h⟩
      · simp only [input_vaControl, he, if_true]
      · have : path = "" := (string_data_nil_iff path).mp he
        simp [this]
    · have hne : path ≠ "" := fun h => he ((string_data_nil_iff path).mpr h)
      by_cases hf : (b_bool && !x.subtitles_Filter path) = true
      · refine ⟨⟨VLC_EGENERIC, s, c⟩, ?_, ?_, fun _ => rfl, fun h => absurd rfl h⟩
        · simp only [input_vaControl, he, hf, if_true, if_false]
        · have hb : b_bool = true ∧ x.subtitles_Filter path = false := by
            simpa using hf
          simp [hb.1, hb.2]
      · refine ⟨⟨VLC_SUCCESS,
          input_ControlPush s input_control_e.INPUT_CONTROL_ADD_SUBTITLE
            (vlc_value_t.psz_string path), c⟩, ?_, ?_, ?_, ?_⟩
        · simp only [input_vaControl, he, hf, if_false]
          simp
        · have hb : ¬ (b_bool = true ∧ x.subtitles_Filter path = false) := by
            simpa using hf
          constructor
          · intro h
            exact absurd h.1.symm VLC_EGENERIC_ne_VLC_SUCCESS
          · rintro (h | h | ⟨h1, p, h2, h3⟩)
            · exact absurd h (by simp)
            · exact absurd (Option.some.inj h) hne
            · have := Option.some.inj h2
              subst this
              exact absurd ⟨h1, h3⟩ hb
        · intro h
          exact absurd h.symm VLC_EGENERIC_ne_VLC_SUCCESS
        · intro _
          exact ⟨rfl, path, rfl, rfl⟩

/-- Witness of C10: a path is queued when the select flag is clear; the empty path is
refused. -/
theorem add_subtitle_validation_witness :
    (∃ r, input_vaControl sample_ext all_ok empty_state blank_caller
            (.INPUT_ADD_SUBTITLE (some "a.srt") false) = some r
        ∧ r.code = VLC_SUCCESS
        ∧ r.st.control = [{ i_type := input_control_e.INPUT_CONTROL_ADD_SUBTITLE,
                            val := vlc_value_t.psz_string "a.srt" }])
    ∧ (∃ r, input_vaControl sample_ext all_ok empty_state blank_caller
            (.INPUT_ADD_SUBTITLE (some "") true) = some r
        ∧ r.code = VLC_EGENERIC ∧ r.st.control = empty_state.control) := by
  constructor
  · obtain ⟨r, hr, _, _, h⟩ :=
      add_subtitle_validation sample_ext all_ok empty_state blank_caller (some "a.srt") false
    have hr2 : r = ⟨VLC_SUCCESS,
        input_ControlPush empty_state input_control_e.INPUT_CONTROL_ADD_SUBTITLE
          (vlc_value_t.psz_string "a.srt"), blank_caller⟩ := (Option.some.inj hr).symm
    subst hr2
    exact ⟨_, hr, rfl, rfl⟩
  · obtain ⟨r, hr, h, _, _⟩ :=
      add_subtitle_validation sample_ext all_ok empty_state blank_caller (some "") true
    exact ⟨r, hr, h.mpr (Or.inr (Or.inl rfl))⟩

/-! ## Deleting and changing a bookmark within bounds -/

theorem aref_of_bounds {α : Type} (a : List α) (i : Int) (h0 : 0 ≤ i)
    (h1 : i < (a.length : Int)) : ∃ v, aref a i = some v ∧ a[i.toNat]? = some v := by
  have hlt : i.toNat < a.length := by omega
  refine ⟨a[i.toNat], ?_, List.getElem?_eq_getElem hlt⟩
  unfold aref
  rw [if_pos h0]
  exact List.getElem?_eq_getElem hlt

/-- C19: with `0 <= i < n`, `INPUT_DEL_BOOKMARK` returns `VLC_SUCCESS`; the new collection has
one entry less, the entries before position `i` are the old ones and every position `j` from
`i` on holds the old entry of position `j + 1`. -/
theorem del_bookmark_in_bounds (x : Ext) (al : Alloc) (s : State) (c : Caller) (i : Int)
    (h0 : 0 ≤ i) (h1 : i < (s.pp_bookmark.length : Int)) :
    ∃ r, input_vaControl x al s c (.INPUT_DEL_BOOKMARK i) = some r
      ∧ r.code = VLC_SUCCESS
      ∧ r.st.pp_bookmark.length + 1 = s.pp_bookmark.length
      ∧ (∀ j : Nat, (j : Int) < i → r.st.pp_bookmark[j]? = s.pp_bookmark[j]?)
      ∧ (∀ j : Nat, i ≤ (j : Int) → r.st.pp_bookmark[j]? = s.pp_bookmark[j + 1]?) := by
  obtain ⟨v, hv, _⟩ := aref_of_bounds s.pp_bookmark i h0 h1
  have hlt : i.toNat < s.pp_bookmark.length := by omega
  refine ⟨⟨VLC_SUCCESS,
    UpdateBookmarksOption x al { s with pp_bookmark := TAB_REMOVE s.pp_bookmark i.toNat }, c⟩,
    ?_, rfl, ?_, ?_, ?_⟩
  · simp only [input_vaControl, h1, if_true, hv]
  · simp only [UpdateBookmarksOption_pp_bookmark, TAB_REMOVE]
    rw [List.length_eraseIdx_of_lt hlt]
    omega
  · intro j hj
    simp only [UpdateBookmarksOption_pp_bookmark, TAB_REMOVE]
    exact List.getElem?_eraseIdx_of_lt _ _ _ (by omega)
  · intro j hj
    simp only [UpdateBookmarksOption_pp_bookmark, TAB_REMOVE]
    exact List.getElem?_eraseIdx_of_ge _ _ _ (by omega)

/-- Witness of C19: deleting slot 0 of a collection of two bookmarks leaves the second one. -/
theorem del_bookmark_in_bounds_witness :
    (0 : Int) ≤ 0 ∧ (0 : Int) < (two_bookmark_state.pp_bookmark.length : Int)
    ∧ ∃ r, input_vaControl sample_ext all_ok two_bookmark_state blank_caller
          (.INPUT_DEL_BOOKMARK 0) = some r
      ∧ r.code = VLC_SUCCESS
      ∧ r.st.pp_bookmark.length + 1 = two_bookmark_state.pp_bookmark.length
      ∧ r.st.pp_bookmark[0]? = some outro_point := by
  refine ⟨by decide, by decide, ?_⟩
  obtain ⟨r, hr, hc, hl, _, hge⟩ :=
    del_bookmark_in_bounds sample_ext all_ok two_bookmark_state blank_caller 0 (by decide)
      (by decide)
  exact ⟨r, hr, hc, hl, hge 0 (by decide)⟩

/-- C20: with `0 <= i < n`, `INPUT_CHANGE_BOOKMARK` returns `VLC_SUCCESS` when the duplication
of `b` succeeds, slot `i` then holds an entry with the name and the time of `b`, the count and
every other slot are unchanged; when the duplication fails it returns `VLC_EGENERIC` and the
whole collection is unchanged. -/
theorem change_bookmark_in_bounds (x : Ext) (al : Alloc) (s : State) (c : Caller)
    (b : seekpoint_t) (i : Int) (h0 : 0 ≤ i) (h1 : i < (s.pp_bookmark.length : Int)) :
    (al.dup_ok = true →
      ∃ r v, input_vaControl x al s c (.INPUT_CHANGE_BOOKMARK b i) = some r
        ∧ r.code = VLC_SUCCESS
        ∧ r.st.pp_bookmark.length = s.pp_bookmark.length
        ∧ r.st.pp_bookmark[i.toNat]? = some v
        ∧ v.psz_name = b.psz_name ∧ v.i_time_offset = b.i_time_offset
        ∧ ∀ j : Nat, j ≠ i.toNat → r.st.pp_bookmark[j]? = s.pp_bookmark[j]?)
    ∧ (al.dup_ok = false →
      ∃ r, input_vaControl x al s c (.INPUT_CHANGE_BOOKMARK b i) = some r
        ∧ r.code = VLC_EGENERIC
        ∧ r.st.pp_bookmark = s.pp_bookmark) := by
  obtain ⟨w, hw, _⟩ := aref_of_bounds s.pp_bookmark i h0 h1
  have hlt : i.toNat < s.pp_bookmark.length := by omega
  constructor
  · intro hd
    refine ⟨⟨VLC_SUCCESS,
      UpdateBookmarksOption x al
        { s with pp_bookmark := s.pp_bookmark.set i.toNat (vlc_seekpoint_Duplicate b) }, c⟩,
      vlc_seekpoint_Duplicate b, ?_, rfl, ?_, ?_, rfl, rfl, ?_⟩
    · simp only [input_vaControl, h1, if_true, hd, hw]
    · simp only [UpdateBookmarksOption_pp_bookmark, List.length_set]
    · simp only [UpdateBookmarksOption_pp_bookmark]
      rw [List.getElem?_set_self hlt]
    · intro j hj
      simp only [UpdateBookmarksOption_pp_bookmark]
      exact List.getElem?_set_ne (Ne.symm hj)
  · intro hd
    refine ⟨⟨VLC_EGENERIC, UpdateBookmarksOption x al s, c⟩, ?_, rfl,
      UpdateBookmarksOption_pp_bookmark x al s⟩
    simp [input_vaControl, h1, hd]

/-- Witness of C20: slot 1 of a collection of two bookmarks is changed; with a failing
duplication the collection stays. -/
theorem change_bookmark_in_bounds_witness :
    (0 : Int) ≤ 1 ∧ (1 : Int) < (two_bookmark_state.pp_bookmark.length : Int)
    ∧ (∃ r, input_vaControl sample_ext all_ok two_bookmark_state blank_caller
          (.INPUT_CHANGE_BOOKMARK unnamed_point 1) = some r
        ∧ r.code = VLC_SUCCESS
        ∧ r.st.pp_bookmark[0]? = some intro_point)
    ∧ (∃ r, input_vaControl sample_ext dup_fails two_bookmark_state blank_caller
          (.INPUT_CHANGE_BOOKMARK unnamed_point 1) = some r
        ∧ r.code = VLC_EGENERIC
        ∧ r.st.pp_bookmark = [intro_point, outro_point]) := by
  refine ⟨by decide, by decide, ?_, ?_⟩
  · obtain ⟨r, _, hr, hc, _, _, _, _, hother⟩ :=
      (change_bookmark_in_bounds sample_ext all_ok two_bookmark_state blank_caller
        unnamed_point 1 (by decide) (by decide)).1 rfl
    exact ⟨r, hr, hc, hother 0 (by decide)⟩
  · exact (change_bookmark_in_bounds sample_ext dup_fails two_bookmark_state blank_caller
      unnamed_point 1 (by decide) (by decide)).2 rfl

/-! ## Attachments and the full title list -/

theorem attachment_scan_eq_none (psz_name : String) (l : List input_attachment_t) :
    attachment_scan psz_name l = none ↔ ∀ a ∈ l, a.psz_name ≠ psz_name := by
  induction l with
  | nil => simp [attachment_scan]
  | cons a rest ih =>
    by_cases h : a.psz_name = psz_name
    · simp [attachment_scan, h]
    · simp [attachment_scan, h, ih]

theorem attachment_scan_eq_some (psz_name : String) (l : List input_attachment_t)
    (a : input_attachment_t) (h : attachment_scan psz_name l = some a) :
    ∃ i : Nat, l[i]? = some a ∧ a.psz_name = psz_name
      ∧ ∀ j : Nat, j < i → ∀ a2, l[j]? = some a2 → a2.psz_name ≠ psz_name := by
  induction l with
  | nil => simp [attachment_scan] at h
  | cons b rest ih =>
    by_cases hb : b.psz_name = psz_name
    · simp only [attachment_scan, hb, if_true] at h
      have hab : b = a := Option.some.inj h
      subst hab
      exact ⟨0, by simp, hb, fun j hj => absurd hj (Nat.not_lt_zero j)⟩
    · simp only [attachment_scan, hb, if_false] at h
      obtain ⟨i, hi, hn, hmin⟩ := ih h
      refine ⟨i + 1, by simpa using hi, hn, ?_⟩
      intro j hj a2 ha2
      cases j with
      | zero =>
        have : b = a2 := by simpa using ha2
        rw [← this]
        exact hb
      | succ k => exact hmin k (by omega) a2 (by simpa using ha2)

/-- C13: `INPUT_GET_ATTACHMENT` returns and leaves the state as it is. When an attachment has
the queried name it returns `VLC_SUCCESS` with a copy of the one of lowest index with that name;
it returns `VLC_EGENERIC` with a null output exactly when no attachment has that name. -/
theorem get_attachment_first_match (x : Ext) (al : Alloc) (s : State) (c : Caller)
    (psz_name : String) :
    ∃ r, input_vaControl x al s c (.INPUT_GET_ATTACHMENT psz_name) = some r
      ∧ r.st = s
      ∧ ((∃ a ∈ s.attachment, a.psz_name = psz_name) →
          r.code = VLC_SUCCESS
          ∧ ∃ (i : Nat) (a : input_attachment_t),
              s.attachment[i]? = some a ∧ a.psz_name = psz_name
              ∧ (∀ j : Nat, j < i → ∀ a2, s.attachment[j]? = some a2 → a2.psz_name ≠ psz_name)
              ∧ r.out.pp_attachment = some a)
      ∧ ((r.code = VLC_EGENERIC ∧ r.out.pp_attachment = none)
          ↔ ∀ a ∈ s.attachment, a.psz_name ≠ psz_name) := by
  cases hscan : attachment_scan psz_name s.attachment with
  | none =>
    have hnone := (attachment_scan_eq_none psz_name s.attachment).mp hscan
    refine ⟨⟨VLC_EGENERIC, s, { c with pp_attachment := none }⟩, ?_, rfl, ?_, ?_⟩
    · simp only [input_vaControl, hscan]
    · rintro ⟨a, ha, hn⟩
      exact absurd hn (hnone a ha)
    · exact ⟨fun _ => hnone, fun _ => ⟨rfl, rfl⟩⟩
  | some a =>
    obtain ⟨i, hi, hn, hmin⟩ := attachment_scan_eq_some psz_name s.attachment a hscan
    refine ⟨⟨VLC_SUCCESS, s,
      { c with pp_attachment := some (vlc_input_attachment_Duplicate a) }⟩, ?_, rfl, ?_, ?_⟩
    · simp only [input_vaControl, hscan]
    · intro _
      exact ⟨rfl, i, a, hi, hn, hmin, rfl⟩
    · constructor
      · intro h
        exact absurd h.1.symm VLC_EGENERIC_ne_VLC_SUCCESS
      · intro h
        exact absurd hn (h a (List.getElem?_mem hi))

/-- Witness of C13: of the two attachments named `cover` the first one is returned. -/
theorem get_attachment_first_match_witness :
    (∃ a ∈ attachment_state.attachment, a.psz_name = "cover")
    ∧ ∃ r, input_vaControl sample_ext all_ok attachment_state blank_caller
          (.INPUT_GET_ATTACHMENT "cover") = some r
      ∧ r.code = VLC_SUCCESS
      ∧ r.out.pp_attachment = some cover_attachment := by
  have hex : ∃ a ∈ attachment_state.attachment, a.psz_name = "cover" :=
    ⟨cover_attachment, by decide, rfl⟩
  refine ⟨hex, ?_⟩
  obtain ⟨r, hr, _, h, _⟩ :=
    get_attachment_first_match sample_ext all_ok attachment_state blank_caller "cover"
  have hr2 : r = ⟨VLC_SUCCESS, attachment_state,
      { blank_caller with pp_attachment := some cover_attachment }⟩ :=
    (Option.some.inj hr).symm
  exact ⟨r, hr, (h hex).1, by rw [hr2]⟩

theorem vlc_input_title_Duplicate_eq (t : input_title_t) : vlc_input_title_Duplicate t = t := by
  cases t
  simp [vlc_input_title_Duplicate, map_vlc_seekpoint_Duplicate]

theorem map_vlc_input_title_Duplicate (l : List input_title_t) :
    l.map vlc_input_title_Duplicate = l := by
  induction l with
  | nil => rfl
  | cons a l ih => simp [ih, vlc_input_title_Duplicate_eq]

theorem map_vlc_input_attachment_Duplicate (l : List input_attachment_t) :
    l.map vlc_input_attachment_Duplicate = l := by
  induction l with
  | nil => rfl
  | cons a l ih =>
    simp only [List.map_cons, ih]
    rfl

/-- C14: `INPUT_GET_ATTACHMENTS` returns `VLC_EGENERIC` with a null array and a zero count when
there is no attachment, and otherwise `VLC_SUCCESS` with the count and copies of the attachments
in order; `INPUT_GET_FULL_TITLE_INFO` returns `VLC_SUCCESS` for every title list when the
allocation succeeds, with the number of titles (possibly zero) and copies of the titles in
order. Neither changes the state. -/
theorem attachments_and_full_titles (x : Ext) (al : Alloc) (s : State) (c : Caller) :
    (∃ r, input_vaControl x al s c .INPUT_GET_ATTACHMENTS = some r
        ∧ r.st = s
        ∧ (s.attachment = [] →
            r.code = VLC_EGENERIC ∧ r.out.ppp_attachment = none ∧ r.out.pi_attachment = 0)
        ∧ (s.attachment ≠ [] →
            r.code = VLC_SUCCESS ∧ r.out.pi_attachment = (s.attachment.length : Int)
            ∧ r.out.ppp_attachment = some s.attachment))
    ∧ (al.malloc_ok = true →
        ∃ r, input_vaControl x al s c .INPUT_GET_FULL_TITLE_INFO = some r
          ∧ r.st = s
          ∧ r.code = VLC_SUCCESS
          ∧ r.out.pi_titles = (s.title.length : Int)
          ∧ r.out.pp_titles = some s.title) := by
  constructor
  · by_cases h : s.attachment = []
    · refine ⟨⟨VLC_EGENERIC, s, { c with ppp_attachment := none, pi_attachment := 0 }⟩,
        ?_, rfl, fun _ => ⟨rfl, rfl, rfl⟩, fun h2 => absurd h h2⟩
      simp [input_vaControl, h]
    · have hl : ¬ s.attachment.length ≤ 0 := by
        intro h0
        exact h (List.length_eq_zero.mp (Nat.le_zero.mp h0))
      refine ⟨⟨VLC_SUCCESS, s,
        { c with pi_attachment := s.attachment.length,
                 ppp_attachment := some (s.attachment.map vlc_input_attachment_Duplicate) }⟩,
        ?_, rfl, fun h2 => absurd h2 h, fun _ => ⟨rfl, rfl, ?_⟩⟩
      · simp only [input_vaControl, hl, if_false]
      · simp only [map_vlc_input_attachment_Duplicate]
  · intro hm
    refine ⟨⟨VLC_SUCCESS, s,
      { c with pp_titles := some (s.title.map vlc_input_title_Duplicate),
               pi_titles := s.title.length }⟩, ?_, rfl, rfl, rfl, ?_⟩
    · simp [input_vaControl, hm]
    · simp only [map_vlc_input_title_Duplicate]

/-- Witness of C14: the attachments of a state that has three, and the titles of a state that
has none. -/
theorem attachments_and_full_titles_witness :
    attachment_state.attachment ≠ [] ∧ all_ok.malloc_ok = true
    ∧ (∃ r, input_vaControl sample_ext all_ok attachment_state blank_caller
            .INPUT_GET_ATTACHMENTS = some r
        ∧ r.code = VLC_SUCCESS ∧ r.out.pi_attachment = 3
        ∧ r.out.ppp_attachment
            = some [font_attachment, cover_attachment, cover_attachment_bis])
    ∧ (∃ r, input_vaControl sample_ext all_ok attachment_state blank_caller
            .INPUT_GET_FULL_TITLE_INFO = some r
        ∧ r.code = VLC_SUCCESS ∧ r.out.pi_titles = 0 ∧ r.out.pp_titles = some []) := by
  refine ⟨by decide, rfl, ?_, ?_⟩
  · obtain ⟨r, hr, _, _, h⟩ :=
      (attachments_and_full_titles sample_ext all_ok attachment_state blank_caller).1
    obtain ⟨h1, h2, h3⟩ := h (by decide)
    exact ⟨r, hr, h1, h2, h3⟩
  · obtain ⟨r, hr, _, h1, h2, h3⟩ :=
      (attachments_and_full_titles sample_ext all_ok attachment_state blank_caller).2 rfl
    exact ⟨r, hr, h1, h2, h3⟩

/-! ## Unknown query codes -/

/-- C15: for a query code without a `case`, the dispatcher returns `VLC_EGENERIC`; the state
(collections, options, choice-list, control queue, variables, events) and the caller variables
are those before the call. -/
theorem unknown_query_generic (x : Ext) (al : Alloc) (s : State) (c : Caller) (i_query : Int) :
    ∃ r, input_vaControl x al s c (.unknown i_query) = some r
      ∧ r.code = VLC_EGENERIC
      ∧ r.st = s
      ∧ r.out = c
      ∧ r.st.pp_bookmark = s.pp_bookmark ∧ r.st.title = s.title
      ∧ r.st.attachment = s.attachment ∧ r.st.ppsz_options = s.ppsz_options
      ∧ r.st.bookmark_choices = s.bookmark_choices ∧ r.st.control = s.control :=
  ⟨⟨VLC_EGENERIC, s, c⟩, rfl, rfl, rfl, rfl, rfl, rfl, rfl, rfl, rfl, rfl⟩

/-! ## Seekpoints and title information -/

theorem aref_eq_some {α : Type} (a : List α) (i : Int) (v : α) (h : aref a i = some v) :
    0 ≤ i ∧ a[i.toNat]? = some v := by
  unfold aref at h
  by_cases h0 : 0 ≤ i
  · rw [if_pos h0] at h
    exact ⟨h0, h⟩
  · rw [if_neg h0] at h
    exact absurd h (by simp)

/-- C11 as stated fails: asked for the current title, `INPUT_GET_SEEKPOINTS` succeeds on two
states that differ only in the current title (offset 0 and offset 1) and leaves the very same
caller variables; the in/out integer holds the seekpoint count 1, not the resolved offset 0. -/
theorem seekpoints_offset_not_returned :
    resolved_title_offset two_title_state current_title_caller.pi_title_to_fetch = 0
    ∧ resolved_title_offset two_title_state_second current_title_caller.pi_title_to_fetch = 1
    ∧ ∃ r1 r2,
        input_vaControl sample_ext all_ok two_title_state current_title_caller
            .INPUT_GET_SEEKPOINTS = some r1
        ∧ input_vaControl sample_ext all_ok two_title_state_second current_title_caller
            .INPUT_GET_SEEKPOINTS = some r2
        ∧ r1.code = VLC_SUCCESS ∧ r2.code = VLC_SUCCESS
        ∧ r1.out.pi_title_to_fetch = 1
        ∧ r1.out = r2.out :=
  ⟨by decide, by decide,
    ⟨VLC_SUCCESS, two_title_state,
      { current_title_caller with pi_title_to_fetch := 1,
                                  pp_seekpoints := some [intro_point] }⟩,
    ⟨VLC_SUCCESS, two_title_state_second,
      { current_title_caller with pi_title_to_fetch := 1,
                                  pp_seekpoints := some [intro_point] }⟩,
    rfl, rfl, rfl, rfl, rfl, rfl⟩

/-- C11 (amended): when `INPUT_GET_SEEKPOINTS` returns `VLC_SUCCESS`, the resolved offset
designates a title, the in/out integer holds the number of seekpoints of that title (the
resolved offset is overwritten by it), the state is unchanged; when that number is not zero the
output array holds copies of the seekpoints of that title in order, and when it is zero the
output array is the one before the call. -/
theorem get_seekpoints_success (x : Ext) (al : Alloc) (s : State) (c : Caller) (r : Ret)
    (h : input_vaControl x al s c .INPUT_GET_SEEKPOINTS = some r)
    (hok : r.code = VLC_SUCCESS) :
    ∃ t : input_title_t,
      0 ≤ resolved_title_offset s c.pi_title_to_fetch
      ∧ s.title[(resolved_title_offset s c.pi_title_to_fetch).toNat]? = some t
      ∧ r.out.pi_title_to_fetch = (t.seekpoint.length : Int)
      ∧ (t.seekpoint ≠ [] → r.out.pp_seekpoints = some t.seekpoint)
      ∧ (t.seekpoint = [] → r.out.pp_seekpoints = c.pp_seekpoints)
      ∧ r.st = s := by
  have key : ∀ c1 : Caller, c1.pp_seekpoints = c.pp_seekpoints →
      (if s.title.length = 0 ∨ (s.title.length : Int) ≤ c1.pi_title_to_fetch then
          some (⟨VLC_EGENERIC, s, c1⟩ : Ret)
        else
          match aref s.title c1.pi_title_to_fetch with
          | none => none
          | some p_title =>
            if p_title.seekpoint.length = 0 then
              some ⟨VLC_SUCCESS, s,
                { c1 with pi_title_to_fetch := (p_title.seekpoint.length : Int) }⟩
            else
              some ⟨VLC_SUCCESS, s,
                { c1 with pi_title_to_fetch := (p_title.seekpoint.length : Int),
                          pp_seekpoints :=
                            some (p_title.seekpoint.map vlc_seekpoint_Duplicate) }⟩) = some r →
      ∃ t : input_title_t,
        0 ≤ c1.pi_title_to_fetch
        ∧ s.title[c1.pi_title_to_fetch.toNat]? = some t
        ∧ r.out.pi_title_to_fetch = (t.seekpoint.length : Int)
        ∧ (t.seekpoint ≠ [] → r.out.pp_seekpoints = some t.seekpoint)
        ∧ (t.seekpoint = [] → r.out.pp_seekpoints = c.pp_seekpoints)
        ∧ r.st = s := by
    intro c1 hc1 hrun
    split at hrun
    · cases hrun
      exact absurd hok VLC_EGENERIC_ne_VLC_SUCCESS
    · cases ha : aref s.title c1.pi_title_to_fetch with
      | none => simp [ha] at hrun
      | some t =>
        obtain ⟨h0, hget⟩ := aref_eq_some _ _ _ ha
        simp only [ha] at hrun
        by_cases hz : t.seekpoint.length = 0
        · rw [if_pos hz] at hrun
          cases hrun
          have hnil : t.seekpoint = [] := List.length_eq_zero.mp hz
          exact ⟨t, h0, hget, rfl, fun hne => absurd hnil hne, fun _ => hc1, rfl⟩
        · rw [if_neg hz] at hrun
          cases hrun
          have hne : t.seekpoint ≠ [] := fun hnil => hz (by rw [hnil]; rfl)
          exact ⟨t, h0, hget, rfl,
            fun _ => by simp only [map_vlc_seekpoint_Duplicate],
            fun hnil => absurd hnil hne, rfl⟩
  by_cases hneg : c.pi_title_to_fetch < 0
  · have hres : resolved_title_offset s c.pi_title_to_fetch = toInt32 s.var_title := by
      simp [resolved_title_offset, hneg]
    rw [hres]
    simp only [input_vaControl, hneg, if_true] at h
    exact key { c with pi_title_to_fetch := toInt32 s.var_title } rfl h
  · have hres : resolved_title_offset s c.pi_title_to_fetch = c.pi_title_to_fetch := by
      simp [resolved_title_offset, hneg]
    rw [hres]
    simp only [input_vaControl, hneg, if_false] at h
    exact key c rfl h

/-- Witness of C11 (amended): the seekpoints of the first title (two of them), then of the
second (none, the array is left). -/
theorem get_seekpoints_success_witness :
    (∃ r, input_vaControl sample_ext all_ok mixed_title_state current_title_caller
            .INPUT_GET_SEEKPOINTS = some r
        ∧ r.code = VLC_SUCCESS
        ∧ r.out.pi_title_to_fetch = 2
        ∧ r.out.pp_seekpoints = some [intro_point, outro_point])
    ∧ (∃ r t, input_vaControl sample_ext all_ok mixed_title_state
            { current_title_caller with pi_title_to_fetch := 1 } .INPUT_GET_SEEKPOINTS = some r
        ∧ r.code = VLC_SUCCESS
        ∧ mixed_title_state.title[(1 : Int).toNat]? = some t
        ∧ r.out.pi_title_to_fetch = (t.seekpoint.length : Int)) := by
  refine ⟨⟨⟨VLC_SUCCESS, mixed_title_state,
      { current_title_caller with pi_title_to_fetch := 2,
                                  pp_seekpoints := some [intro_point, outro_point] }⟩,
      rfl, rfl, rfl, rfl⟩, ?_⟩
  obtain ⟨t, _, ht, hcount, _⟩ :=
    get_seekpoints_success sample_ext all_ok mixed_title_state
      { current_title_caller with pi_title_to_fetch := 1 }
      ⟨VLC_SUCCESS, mixed_title_state, { current_title_caller with pi_title_to_fetch := 0 }⟩
      rfl rfl
  exact ⟨_, t, rfl, rfl, ht, hcount⟩

theorem toInt32_neg_one : toInt32 (-1) = -1 := by decide

/-- C12 (failing input): with at least one title, the `title` variable equal to `-1` and a
negative requested offset, the resolved offset is `-1`; the source test
`priv->i_title && priv->i_title > *pi_req_title_offset` holds, so `priv->title[-1]` is read:
the behaviour is undefined instead of a return of `VLC_EGENERIC`. -/
theorem get_title_info_negative_current (x : Ext) (al : Alloc) (s : State) (c : Caller)
    (t : input_title_t) (ts : List input_title_t) (n : Nat) :
    resolved_title_offset { s with title := t :: ts, var_title := -1 } (-((n : Int) + 1)) = -1
    ∧ input_vaControl x al { s with title := t :: ts, var_title := -1 }
        { c with pi_req_title_offset := -((n : Int) + 1) } .INPUT_GET_TITLE_INFO = none := by
  have hneg : -((n : Int) + 1) < 0 := by omega
  constructor
  · unfold resolved_title_offset
    rw [if_pos hneg]
    exact toInt32_neg_one
  · have hb : (t :: ts).length ≠ 0 ∧ (((t :: ts).length : Nat) : Int) > -1 := by
      constructor
      · simp
      · have : (0 : Int) ≤ ((t :: ts).length : Nat) := Int.ofNat_nonneg _
        omega
    have ha : aref (t :: ts) (-1) = none := by
      have := aref_neg (t :: ts) 0
      simpa using this
    simp only [input_vaControl, hneg, if_true, toInt32_neg_one, hb, ha]
    simp [hb, ha]

/-- When the resolved offset is not negative, `INPUT_GET_TITLE_INFO` writes it to the in/out
integer and returns `VLC_SUCCESS` with a copy of the title at that offset exactly when the
offset is below the title count, `VLC_EGENERIC` otherwise; the state is unchanged. -/
theorem get_title_info_nonneg (x : Ext) (al : Alloc) (s : State) (c : Caller)
    (h0 : 0 ≤ resolved_title_offset s c.pi_req_title_offset) :
    ∃ r, input_vaControl x al s c .INPUT_GET_TITLE_INFO = some r
      ∧ r.st = s
      ∧ r.out.pi_req_title_offset = resolved_title_offset s c.pi_req_title_offset
      ∧ (resolved_title_offset s c.pi_req_title_offset < (s.title.length : Int) →
          r.code = VLC_SUCCESS
          ∧ ∃ t, s.title[(resolved_title_offset s c.pi_req_title_offset).toNat]? = some t
              ∧ r.out.p_title = some t)
      ∧ ((s.title.length : Int) ≤ resolved_title_offset s c.pi_req_title_offset →
          r.code = VLC_EGENERIC ∧ r.out.p_title = c.p_title) := by
  have key : ∀ c1 : Caller, c1.p_title = c.p_title → 0 ≤ c1.pi_req_title_offset →
      ∃ r,
        (if s.title.length ≠ 0 ∧ (s.title.length : Int) > c1.pi_req_title_offset then
            match aref s.title c1.pi_req_title_offset with
            | none => none
            | some t =>
              some (⟨VLC_SUCCESS, s,
                { c1 with p_title := some (vlc_input_title_Duplicate t) }⟩ : Ret)
          else some ⟨VLC_EGENERIC, s, c1⟩) = some r
        ∧ r.st = s
        ∧ r.out.pi_req_title_offset = c1.pi_req_title_offset
        ∧ (c1.pi_req_title_offset < (s.title.length : Int) →
            r.code = VLC_SUCCESS
            ∧ ∃ t, s.title[c1.pi_req_title_offset.toNat]? = some t ∧ r.out.p_title = some t)
        ∧ ((s.title.length : Int) ≤ c1.pi_req_title_offset →
            r.code = VLC_EGENERIC ∧ r.out.p_title = c.p_title) := by
    intro c1 hc1 hnn
    by_cases hlt : c1.pi_req_title_offset < (s.title.length : Int)
    · obtain ⟨t, ha, hget⟩ := aref_of_bounds s.title c1.pi_req_title_offset hnn hlt
      have hlen : s.title.length ≠ 0 := by
        intro hz
        rw [hz] at hlt
        simp at hlt
        omega
      refine ⟨⟨VLC_SUCCESS, s, { c1 with p_title := some (vlc_input_title_Duplicate t) }⟩,
        ?_, rfl, rfl, ?_, ?_⟩
      · rw [if_pos ⟨hlen, hlt⟩]
        simp only [ha]
      · intro _
        exact ⟨rfl, t, hget, by simp only [vlc_input_title_Duplicate_eq]⟩
      · intro hle
        omega
    · refine ⟨⟨VLC_EGENERIC, s, c1⟩, ?_, rfl, rfl, ?_, ?_⟩
      · rw [if_neg (fun hc => hlt hc.2)]
      · intro h
        exact absurd h hlt
      · intro _
        exact ⟨rfl, hc1⟩
  by_cases hneg : c.pi_req_title_offset < 0
  · have hres : resolved_title_offset s c.pi_req_title_offset = toInt32 s.var_title := by
      simp [resolved_title_offset, hneg]
    rw [hres] at h0 ⊢
    obtain ⟨r, hr, h1, h2, h3, h4⟩ :=
      key { c with pi_req_title_offset := toInt32 s.var_title } rfl h0
    refine ⟨r, ?_, h1, h2, h3, h4⟩
    simp only [input_vaControl, hneg, if_true]
    exact hr
  · have hres : resolved_title_offset s c.pi_req_title_offset = c.pi_req_title_offset := by
      simp [resolved_title_offset, hneg]
    rw [hres] at h0 ⊢
    obtain ⟨r, hr, h1, h2, h3, h4⟩ := key c rfl h0
    refine ⟨r, ?_, h1, h2, h3, h4⟩
    simp only [input_vaControl, hneg, if_false]
    exact hr

/-! ## Events and the preparsing mode -/

theorem UpdateBookmarksOption_events (x : Ext) (al : Alloc) (s : State) :
    (UpdateBookmarksOption x al s).events = s.events ++ [input_event.Bookmark] := by
  unfold UpdateBookmarksOption input_SendEvent
  by_cases hm : al.memstream_ok = true
  · by_cases ho : (options_loop (bookmarks_loop x 0 s.pp_bookmark ([], "bookmarks=")).2
        s.ppsz_options false).2 = true
    · simp [hm, ho]
    · simp [hm, ho]
  · simp [hm]

/-- A successful bookmark query ends with `UpdateBookmarksOption` on a state with the events of
the state before the call. -/
theorem bookmark_query_success_events (x : Ext) (al : Alloc) (s : State) (c : Caller)
    (q : Query) (r : Ret) (hq : is_bookmark_query q = true)
    (h : input_vaControl x al s c q = some r) (hok : r.code = VLC_SUCCESS) :
    ∃ s1, r.st = UpdateBookmarksOption x al s1 ∧ s1.events = s.events := by
  cases q <;> simp only [is_bookmark_query] at hq <;> try exact absurd hq (by decide)
  · simp only [input_vaControl] at h
    split at h
    · cases h
      exact ⟨_, rfl, rfl⟩
    · cases h
      exact absurd hok VLC_EGENERIC_ne_VLC_SUCCESS
  · simp only [input_vaControl] at h
    split at h
    · split at h
      · split at h
        · exact absurd h (by simp)
        · cases h
          exact ⟨_, rfl, rfl⟩
      · cases h
        exact absurd hok VLC_EGENERIC_ne_VLC_SUCCESS
    · cases h
      exact absurd hok VLC_EGENERIC_ne_VLC_SUCCESS
  · simp only [input_vaControl] at h
    split at h
    · split at h
      · exact absurd h (by simp)
      · cases h
        exact ⟨_, rfl, rfl⟩
    · cases h
      exact absurd hok VLC_EGENERIC_ne_VLC_SUCCESS
  · simp only [input_vaControl] at h
    cases h
    exact ⟨_, rfl, rfl⟩

theorem control_info_events (al : Alloc) (s : State) (c : Caller) (q : Query) (always : Bool)
    (r : Ret) (h : control_info al s c q always = some r) :
    (s.b_preparsing = true → r.st.events = s.events)
    ∧ (s.b_preparsing = false → r.code = VLC_SUCCESS →
        r.st.events = s.events ++ [input_event.MetaInfo]) := by
  unfold control_info at h
  have hr := Option.some.inj h
  subst hr
  constructor
  · intro hp
    by_cases h0 : (if always = true then VLC_SUCCESS else al.info_ret) = 0
    · simp [hp, h0]
    · simp [hp, h0]
  · intro hp hok
    have h0 : (if always = true then VLC_SUCCESS else al.info_ret) = 0 := hok
    simp [hp, h0, input_SendEvent]

/-- C16 as stated fails: in preparsing mode `INPUT_ADD_BOOKMARK` succeeds and the bookmark event
is sent (`UpdateBookmarksOption` calls `input_SendEventBookmark` without a test of
`b_preparsing`). -/
theorem bookmark_event_sent_while_preparsing :
    preparsing_state.b_preparsing = true ∧ preparsing_state.events = []
    ∧ ∃ r, input_vaControl sample_ext all_ok preparsing_state blank_caller
          (.INPUT_ADD_BOOKMARK intro_point) = some r
      ∧ r.code = VLC_SUCCESS
      ∧ r.st.events = [input_event.Bookmark] :=
  ⟨rfl, rfl,
    ⟨VLC_SUCCESS,
      UpdateBookmarksOption sample_ext all_ok
        { preparsing_state with pp_bookmark := [intro_point] }, blank_caller⟩,
    rfl, rfl, by decide⟩

/-- C16 (amended): a metadata query (`INPUT_ADD_INFO`, `INPUT_REPLACE_INFOS`,
`INPUT_MERGE_INFOS`, `INPUT_DEL_INFO`) sends no event while `b_preparsing` is set, and outside
preparsing mode sends exactly the metadata event when it returns `VLC_SUCCESS`; a bookmark query
(add, change, delete, clear) that returns `VLC_SUCCESS` sends exactly the bookmark event. -/
theorem events_of_info_and_bookmark_queries (x : Ext) (al : Alloc) (s : State) (c : Caller)
    (q : Query) (r : Ret) (h : input_vaControl x al s c q = some r) :
    (is_info_query q = true → s.b_preparsing = true → r.st.events = s.events)
    ∧ (is_info_query q = true → s.b_preparsing = false → r.code = VLC_SUCCESS →
        r.st.events = s.events ++ [input_event.MetaInfo])
    ∧ (is_bookmark_query q = true → r.code = VLC_SUCCESS →
        r.st.events = s.events ++ [input_event.Bookmark]) := by
  have hinfo : is_info_query q = true →
      (s.b_preparsing = true → r.st.events = s.events)
      ∧ (s.b_preparsing = false → r.code = VLC_SUCCESS →
          r.st.events = s.events ++ [input_event.MetaInfo]) := by
    intro hq
    cases q <;> simp only [is_info_query] at hq <;> try exact absurd hq (by decide)
    · simp only [input_vaControl] at h
      split at h
      · exact control_info_events al s c _ false r h
      · cases h
        exact ⟨fun _ => rfl, fun _ hok => absurd hok VLC_EGENERIC_ne_VLC_SUCCESS⟩
    · exact control_info_events al s c _ true r (by simpa only [input_vaControl] using h)
    · exact control_info_events al s c _ true r (by simpa only [input_vaControl] using h)
    · exact control_info_events al s c _ false r (by simpa only [input_vaControl] using h)
  refine ⟨fun hq => (hinfo hq).1, fun hq => (hinfo hq).2, ?_⟩
  intro hq hok
  obtain ⟨s1, hs1, hev⟩ := bookmark_query_success_events x al s c q r hq h hok
  rw [hs1, UpdateBookmarksOption_events, hev]

/-- Witness of C16 (amended): in preparsing mode a successful `INPUT_ADD_INFO` sends nothing;
outside it sends the metadata event; a successful `INPUT_DEL_BOOKMARK` sends the bookmark
event. -/
theorem events_of_info_and_bookmark_queries_witness :
    (∃ r, input_vaControl sample_ext all_ok preparsing_state blank_caller
            (.INPUT_ADD_INFO "meta" "artist" "x") = some r
        ∧ r.code = VLC_SUCCESS ∧ r.st.events = preparsing_state.events)
    ∧ (∃ r, input_vaControl sample_ext all_ok empty_state blank_caller
            (.INPUT_ADD_INFO "meta" "artist" "x") = some r
        ∧ r.code = VLC_SUCCESS ∧ r.st.events = empty_state.events ++ [input_event.MetaInfo])
    ∧ (∃ r, input_vaControl sample_ext all_ok one_bookmark_state blank_caller
            (.INPUT_DEL_BOOKMARK 0) = some r
        ∧ r.code = VLC_SUCCESS
        ∧ r.st.events = one_bookmark_state.events ++ [input_event.Bookmark]) := by
  refine ⟨?_, ?_, ?_⟩
  · cases hr : input_vaControl sample_ext all_ok preparsing_state blank_caller
        (.INPUT_ADD_INFO "meta" "artist" "x") with
    | none => exact absurd hr (by simp [input_vaControl, control_info, all_ok])
    | some r =>
      have hc : r.code = VLC_SUCCESS := by
        simp only [input_vaControl, control_info, all_ok, if_true] at hr
        rw [← Option.some.inj hr]
        rfl
      exact ⟨r, rfl, hc,
        (events_of_info_and_bookmark_queries sample_ext all_ok preparsing_state blank_caller
          _ r hr).1 rfl rfl⟩
  · cases hr : input_vaControl sample_ext all_ok empty_state blank_caller
        (.INPUT_ADD_INFO "meta" "artist" "x") with
    | none => exact absurd hr (by simp [input_vaControl, control_info, all_ok])
    | some r =>
      have hc : r.code = VLC_SUCCESS := by
        simp only [input_vaControl, control_info, all_ok, if_true] at hr
        rw [← Option.some.inj hr]
        rfl
      exact ⟨r, rfl, hc,
        (events_of_info_and_bookmark_queries sample_ext all_ok empty_state blank_caller
          _ r hr).2.1 rfl rfl hc⟩
  · exact ⟨⟨VLC_SUCCESS,
        UpdateBookmarksOption sample_ext all_ok
          { one_bookmark_state with pp_bookmark := TAB_REMOVE one_bookmark_state.pp_bookmark 0 },
        blank_caller⟩, rfl, rfl,
      (events_of_info_and_bookmark_queries sample_ext all_ok one_bookmark_state blank_caller
        (.INPUT_DEL_BOOKMARK 0) _ rfl).2.2 rfl rfl⟩

/-! ## The rate round trip -/

theorem set_rate_eq (x : Ext) (al : Alloc) (s : State) (c : Caller) (arg : Int)
    (hset : al.var_ret = VLC_SUCCESS) (harg : arg ≠ 0) :
    input_vaControl x al s c (.INPUT_SET_RATE arg)
      = some ⟨VLC_SUCCESS,
          { s with var_rate := some ((INPUT_RATE_DEFAULT : ℚ) / (arg : ℚ)) }, c⟩ := by
  have h0 : al.var_ret = 0 := hset
  simp only [input_vaControl, h0, harg, if_true, if_false]
  rfl

theorem get_rate_eq (x : Ext) (al : Alloc) (s : State) (c : Caller) (r : ℚ) (v : Int)
    (hr : s.var_rate = some r) (h0 : r ≠ 0)
    (hv : float_to_int ((INPUT_RATE_DEFAULT : ℚ) / r) = some v) :
    input_vaControl x al s c .INPUT_GET_RATE = some ⟨VLC_SUCCESS, s, { c with pi_int := v }⟩ := by
  simp only [input_vaControl, hr, h0, if_false, hv]

theorem fits_binary32_intCast (m : Int) (h : |m| < 2 ^ 24) : fits_binary32 (m : ℚ) :=
  ⟨m, 0, h, by omega, by simp⟩

/-- C17: for each rate multiplier `R` among 0.5, 1, 2 and 4, with `arg = INPUT_RATE_DEFAULT / R`
(an integer), `INPUT_SET_RATE arg` accepted by the variable store leaves `R` in the `rate`
variable, and the `INPUT_GET_RATE` that follows returns `VLC_SUCCESS` and the same `arg`, which
encodes the same `R`. The two quotients are binary32 values, so the float operations of the
source compute them without rounding. -/
theorem rate_round_trip (x : Ext) (al al2 : Alloc) (s : State) (c c2 : Caller) (R : ℚ)
    (hR : R = 1 / 2 ∨ R = 1 ∨ R = 2 ∨ R = 4) (hset : al.var_ret = VLC_SUCCESS) :
    ∃ (arg : Int) (r1 r2 : Ret),
      (arg : ℚ) = (INPUT_RATE_DEFAULT : ℚ) / R
      ∧ input_vaControl x al s c (.INPUT_SET_RATE arg) = some r1
      ∧ r1.code = VLC_SUCCESS
      ∧ r1.st.var_rate = some R
      ∧ fits_binary32 R
      ∧ fits_binary32 ((INPUT_RATE_DEFAULT : ℚ) / R)
      ∧ input_vaControl x al2 r1.st c2 .INPUT_GET_RATE = some r2
      ∧ r2.code = VLC_SUCCESS
      ∧ r2.out.pi_int = arg
      ∧ (INPUT_RATE_DEFAULT : ℚ) / (r2.out.pi_int : ℚ) = R := by
  have main : ∀ (arg : Int), arg ≠ 0 → |arg| < 2 ^ 24 →
      (arg : ℚ) = (INPUT_RATE_DEFAULT : ℚ) / R →
      (INPUT_RATE_DEFAULT : ℚ) / (arg : ℚ) = R → R ≠ 0 → fits_binary32 R →
      float_to_int ((INPUT_RATE_DEFAULT : ℚ) / R) = some arg →
      ∃ (arg : Int) (r1 r2 : Ret),
        (arg : ℚ) = (INPUT_RATE_DEFAULT : ℚ) / R
        ∧ input_vaControl x al s c (.INPUT_SET_RATE arg) = some r1
        ∧ r1.code = VLC_SUCCESS
        ∧ r1.st.var_rate = some R
        ∧ fits_binary32 R
        ∧ fits_binary32 ((INPUT_RATE_DEFAULT : ℚ) / R)
        ∧ input_vaControl x al2 r1.st c2 .INPUT_GET_RATE = some r2
        ∧ r2.code = VLC_SUCCESS
        ∧ r2.out.pi_int = arg
        ∧ (INPUT_RATE_DEFAULT : ℚ) / (r2.out.pi_int : ℚ) = R := by
    intro arg harg hsmall henc hdec hR0 hfit hconv
    refine ⟨arg,
      ⟨VLC_SUCCESS, { s with var_rate := some ((INPUT_RATE_DEFAULT : ℚ) / (arg : ℚ)) }, c⟩,
      ⟨VLC_SUCCESS, { s with var_rate := some ((INPUT_RATE_DEFAULT : ℚ) / (arg : ℚ)) },
        { c2 with pi_int := arg }⟩,
      henc, set_rate_eq x al s c arg hset harg, rfl, ?_, hfit, ?_, ?_, rfl, rfl, hdec⟩
    · show some ((INPUT_RATE_DEFAULT : ℚ) / (arg : ℚ)) = some R
      rw [hdec]
    · rw [← henc]
      exact fits_binary32_intCast arg hsmall
    · exact get_rate_eq x al2 _ c2 R arg (by show some _ = some R; rw [hdec]) hR0 hconv
  rcases hR with h | h | h | h
  · subst h
    exact main 2000 (by decide) (by decide) (by norm_num [INPUT_RATE_DEFAULT])
      (by norm_num [INPUT_RATE_DEFAULT]) (by norm_num) ⟨1, 1, by decide, by decide, by norm_num⟩
      (by norm_num [float_to_int, INPUT_RATE_DEFAULT])
  · subst h
    exact main 1000 (by decide) (by decide) (by norm_num [INPUT_RATE_DEFAULT])
      (by norm_num [INPUT_RATE_DEFAULT]) (by norm_num) ⟨1, 0, by decide, by decide, by norm_num⟩
      (by norm_num [float_to_int, INPUT_RATE_DEFAULT])
  · subst h
    exact main 500 (by decide) (by decide) (by norm_num [INPUT_RATE_DEFAULT])
      (by norm_num [INPUT_RATE_DEFAULT]) (by norm_num) ⟨2, 0, by decide, by decide, by norm_num⟩
      (by norm_num [float_to_int, INPUT_RATE_DEFAULT])
  · subst h
    exact main 250 (by decide) (by decide) (by norm_num [INPUT_RATE_DEFAULT])
      (by norm_num [INPUT_RATE_DEFAULT]) (by norm_num) ⟨4, 0, by decide, by decide, by norm_num⟩
      (by norm_num [float_to_int, INPUT_RATE_DEFAULT])

/-- Witness of C17: the multiplier 0.5, whose argument is 2000. -/
theorem rate_round_trip_witness :
    ((1 / 2 : ℚ) = 1 / 2 ∨ (1 / 2 : ℚ) = 1 ∨ (1 / 2 : ℚ) = 2 ∨ (1 / 2 : ℚ) = 4)
    ∧ all_ok.var_ret = VLC_SUCCESS
    ∧ ∃ (arg : Int) (r1 r2 : Ret),
        (arg : ℚ) = (INPUT_RATE_DEFAULT : ℚ) / (1 / 2)
        ∧ input_vaControl sample_ext all_ok empty_state blank_caller (.INPUT_SET_RATE arg)
            = some r1
        ∧ r1.st.var_rate = some (1 / 2)
        ∧ input_vaControl sample_ext all_ok r1.st blank_caller .INPUT_GET_RATE = some r2
        ∧ r2.code = VLC_SUCCESS
        ∧ r2.out.pi_int = arg := by
  refine ⟨Or.inl rfl, rfl, ?_⟩
  obtain ⟨arg, r1, r2, h1, h2, _, h4, _, _, h7, h8, h9, _⟩ :=
    rate_round_trip sample_ext all_ok all_ok empty_state blank_caller blank_caller (1 / 2)
      (Or.inl rfl) rfl
  exact ⟨arg, r1, r2, h1, h2, h4, h7, h8, h9⟩

/-! ## Queries that only queue a command -/

/-- A read query returns the same code and the same caller variables whatever the control
queue holds. -/
theorem read_query_ignores_queue (x : Ext) (al : Alloc) (s : State) (c : Caller) (q : Query)
    (k : List input_control_t) (hq : is_read_query q = true) :
    observed (input_vaControl x al { s with control := k } c q)
      = observed (input_vaControl x al s c q) := by
  cases q <;> simp only [is_read_query] at hq <;> try exact absurd hq (by decide)
  all_goals simp only [input_vaControl, input_resource_HoldVouts]
  all_goals (repeat' split) <;> simp_all [observed]

theorem VLC_ENOMEM_ne_VLC_SUCCESS : VLC_ENOMEM ≠ VLC_SUCCESS := by decide

/-- A queue query that returns `VLC_SUCCESS` leaves the state with one more command at the end
of the queue and nothing else changed, and does not touch the caller variables. -/
theorem queue_query_push (x : Ext) (al : Alloc) (s : State) (c : Caller) (q : Query) (r : Ret)
    (hq : is_queue_query q = true) (h : input_vaControl x al s c q = some r)
    (hok : r.code = VLC_SUCCESS) :
    ∃ cmd : input_control_t, r.st = { s with control := s.control ++ [cmd] } ∧ r.out = c := by
  cases q <;> simp only [is_queue_query] at hq <;> try exact absurd hq (by decide)
  all_goals simp only [input_vaControl] at h
  all_goals (repeat' split at h)
  all_goals first
    | (cases h; exact ⟨_, rfl, rfl⟩)
    | (cases h; exact absurd hok VLC_EGENERIC_ne_VLC_SUCCESS)
    | (cases h; exact absurd hok VLC_ENOMEM_ne_VLC_SUCCESS)

/-- C18: a queue-producing query (`INPUT_NAV_*`, `INPUT_SET_BOOKMARK`, `INPUT_RESTART_ES`,
`INPUT_ADD_SLAVE`, `INPUT_ADD_SUBTITLE`, `INPUT_UPDATE_VIEWPOINT`) that returns `VLC_SUCCESS`
has appended exactly one command after the commands already queued; the bookmark, title and
attachment collections, the current bookmark, the option strings and the variables are those
before the call, and every read query issued next returns the code and the outputs it would
have returned before the call. -/
theorem queue_query_frame (x : Ext) (al : Alloc) (s : State) (c : Caller) (q : Query) (r : Ret)
    (hq : is_queue_query q = true) (h : input_vaControl x al s c q = some r)
    (hok : r.code = VLC_SUCCESS) :
    ∃ cmd : input_control_t,
      r.st.control = s.control ++ [cmd]
      ∧ r.st = { s with control := s.control ++ [cmd] }
      ∧ r.st.pp_bookmark = s.pp_bookmark ∧ r.st.title = s.title
      ∧ r.st.attachment = s.attachment ∧ r.st.bookmark = s.bookmark
      ∧ r.st.ppsz_options = s.ppsz_options
      ∧ r.st.var_position = s.var_position ∧ r.st.var_length = s.var_length
      ∧ r.st.var_time = s.var_time ∧ r.st.var_rate = s.var_rate
      ∧ r.st.var_state = s.var_state ∧ r.st.var_audio_delay = s.var_audio_delay
      ∧ r.st.var_spu_delay = s.var_spu_delay ∧ r.st.var_title = s.var_title
      ∧ r.st.var_record = s.var_record
      ∧ r.out = c
      ∧ ∀ (al2 : Alloc) (c2 : Caller) (q2 : Query), is_read_query q2 = true →
          observed (input_vaControl x al2 r.st c2 q2)
            = observed (input_vaControl x al2 s c2 q2) := by
  obtain ⟨cmd, hst, hout⟩ := queue_query_push x al s c q r hq h hok
  refine ⟨cmd, ?_, hst, ?_, ?_, ?_, ?_, ?_, ?_, ?_, ?_, ?_, ?_, ?_, ?_, ?_, ?_, hout, ?_⟩
  all_goals try (rw [hst])
  intro al2 c2 q2 hq2
  exact read_query_ignores_queue x al2 s c2 q2 _ hq2

/-- Witness of C18: a subtitle is queued on a state with one bookmark; the listing of the
bookmarks that follows returns what it returned before. -/
theorem queue_query_frame_witness :
    is_queue_query (.INPUT_ADD_SUBTITLE (some "a.srt") false) = true
    ∧ is_read_query .INPUT_GET_BOOKMARKS = true
    ∧ ∃ r, input_vaControl sample_ext all_ok one_bookmark_state blank_caller
          (.INPUT_ADD_SUBTITLE (some "a.srt") false) = some r
      ∧ r.code = VLC_SUCCESS
      ∧ r.st.control = [{ i_type := input_control_e.INPUT_CONTROL_ADD_SUBTITLE,
                          val := vlc_value_t.psz_string "a.srt" }]
      ∧ observed (input_vaControl sample_ext all_ok r.st blank_caller .INPUT_GET_BOOKMARKS)
          = observed (input_vaControl sample_ext all_ok one_bookmark_state blank_caller
              .INPUT_GET_BOOKMARKS) := by
  refine ⟨rfl, rfl,
    ⟨VLC_SUCCESS,
      input_ControlPush one_bookmark_state input_control_e.INPUT_CONTROL_ADD_SUBTITLE
        (vlc_value_t.psz_string "a.srt"), blank_caller⟩, rfl, rfl, rfl, ?_⟩
  obtain ⟨_, _, _, _, _, _, _, _, _, _, _, _, _, _, _, _, _, _, hread⟩ :=
    queue_query_frame sample_ext all_ok one_bookmark_state blank_caller
      (.INPUT_ADD_SUBTITLE (some "a.srt") false)
      ⟨VLC_SUCCESS,
        input_ControlPush one_bookmark_state input_control_e.INPUT_CONTROL_ADD_SUBTITLE
          (vlc_value_t.psz_string "a.srt"), blank_caller⟩ rfl rfl rfl
  exact hread all_ok blank_caller .INPUT_GET_BOOKMARKS rfl

/-! ## The option list after `UpdateBookmarksOption` -/

/-- On slots that are distinct blocks the loop with the pointers returns, and the texts it
leaves are those of `options_loop`. -/
theorem options_loop_blocks_texts (vstr_ptr : Nat) (vstr : String) (b : Bool) :
    ∀ (slots : List option_slot) (freed : List Nat),
      (∀ sl ∈ slots, sl.block ∉ freed) → (slots.map option_slot.block).Nodup →
      ∃ r, options_loop_blocks vstr_ptr vstr slots freed = some r
        ∧ r.map option_slot.text = (options_loop vstr (slots.map option_slot.text) b).1 := by
  intro slots
  induction slots with
  | nil =>
    intro freed _ _
    exact ⟨[], rfl, rfl⟩
  | cons sl rest ih =>
    intro freed hfr hnd
    rw [List.map_cons, List.nodup_cons] at hnd
    have hsl : sl.block ∉ freed := hfr sl (List.mem_cons_self _ _)
    by_cases hp : is_bookmarks_option sl.text = true
    · have hfr2 : ∀ s2 ∈ rest, s2.block ∉ sl.block :: freed := by
        intro s2 hs2 hmem
        rcases List.mem_cons.mp hmem with e | e
        · exact hnd.1 (e ▸ List.mem_map_of_mem _ hs2)
        · exact hfr s2 (List.mem_cons_of_mem _ hs2) e
      obtain ⟨r, hr, ht⟩ := ih (sl.block :: freed) hfr2 hnd.2
      refine ⟨{ block := vstr_ptr, text := vstr } :: r, ?_, ?_⟩
      · simp [options_loop_blocks, hsl, hp, hr]
      · rw [options_loop_eq] at ht ⊢
        simp only [List.map_cons, hp, if_true]
        rw [ht]
    · have hfr2 : ∀ s2 ∈ rest, s2.block ∉ freed := fun s2 hs2 =>
        hfr s2 (List.mem_cons_of_mem _ hs2)
      obtain ⟨r, hr, ht⟩ := ih freed hfr2 hnd.2
      refine ⟨sl :: r, ?_, ?_⟩
      · simp [options_loop_blocks, hsl, hp, hr]
      · rw [options_loop_eq] at ht ⊢
        simp only [List.map_cons, hp]
        rw [ht]
        rfl

/-- The blocks the loop leaves in the slots are blocks of the slots before it or the block of
the buffer. -/
theorem options_loop_blocks_subset (vstr_ptr : Nat) (vstr : String) :
    ∀ (slots : List option_slot) (freed : List Nat) (r : List option_slot),
      options_loop_blocks vstr_ptr vstr slots freed = some r →
      ∀ p ∈ r.map option_slot.block, p = vstr_ptr ∨ p ∈ slots.map option_slot.block := by
  intro slots
  induction slots with
  | nil =>
    intro freed r h p hp
    simp only [options_loop_blocks, Option.some.injEq] at h
    subst h
    exact absurd hp (List.not_mem_nil p)
  | cons sl rest ih =>
    intro freed r h p hp
    unfold options_loop_blocks at h
    split at h
    · exact absurd h (by simp)
    · split at h
      · obtain ⟨r2, hr2, e⟩ := Option.map_eq_some'.mp h
        subst e
        rcases List.mem_cons.mp hp with e | e
        · exact Or.inl e
        · rcases ih _ r2 hr2 p e with h1 | h1
          · exact Or.inl h1
          · exact Or.inr (List.mem_cons_of_mem _ h1)
      · obtain ⟨r2, hr2, e⟩ := Option.map_eq_some'.mp h
        subst e
        rcases List.mem_cons.mp hp with e | e
        · exact Or.inr (e ▸ List.mem_cons_self _ _)
        · rcases ih _ r2 hr2 p e with h1 | h1
          · exact Or.inl h1
          · exact Or.inr (List.mem_cons_of_mem _ h1)

/-- A loop over slots none of which starts with `bookmarks=` leaves the slots as they are. -/
theorem options_loop_blocks_none (vstr_ptr : Nat) (vstr : String) :
    ∀ (slots : List option_slot) (freed : List Nat) (r : List option_slot),
      options_loop_blocks vstr_ptr vstr slots freed = some r →
      slots.countP (fun sl => is_bookmarks_option sl.text) = 0 → r = slots := by
  intro slots
  induction slots with
  | nil =>
    intro freed r h _
    simp only [options_loop_blocks, Option.some.injEq] at h
    exact h.symm
  | cons sl rest ih =>
    intro freed r h hc
    have hp : is_bookmarks_option sl.text = false := by
      cases hq : is_bookmarks_option sl.text with
      | false => rfl
      | true => simp [List.countP_cons, hq] at hc
    have hrest : rest.countP (fun sl => is_bookmarks_option sl.text) = 0 := by
      simpa [List.countP_cons, hp] using hc
    unfold options_loop_blocks at h
    split at h
    · exact absurd h (by simp)
    · rw [hp] at h
      simp only [Bool.false_eq_true, if_false] at h
      obtain ⟨r2, hr2, e⟩ := Option.map_eq_some'.mp h
      subst e
      rw [ih _ r2 hr2 hrest]

/-- With at most one slot that starts with `bookmarks=`, distinct blocks stay distinct: no two
slots share a block after the loop. -/
theorem options_loop_blocks_nodup (vstr_ptr : Nat) (vstr : String) :
    ∀ (slots : List option_slot) (freed : List Nat) (r : List option_slot),
      options_loop_blocks vstr_ptr vstr slots freed = some r →
      (slots.map option_slot.block).Nodup → vstr_ptr ∉ slots.map option_slot.block →
      slots.countP (fun sl => is_bookmarks_option sl.text) ≤ 1 →
      (r.map option_slot.block).Nodup := by
  intro slots
  induction slots with
  | nil =>
    intro freed r h _ _ _
    simp only [options_loop_blocks, Option.some.injEq] at h
    subst h
    exact List.nodup_nil
  | cons sl rest ih =>
    intro freed r h hnd hfresh hc
    rw [List.map_cons, List.nodup_cons] at hnd
    rw [List.map_cons, List.mem_cons, not_or] at hfresh
    unfold options_loop_blocks at h
    split at h
    · exact absurd h (by simp)
    · split at h
      · rename_i hp
        obtain ⟨r2, hr2, e⟩ := Option.map_eq_some'.mp h
        subst e
        have hrest : rest.countP (fun sl => is_bookmarks_option sl.text) = 0 := by
          simp only [List.countP_cons, hp, if_true] at hc
          omega
        rw [options_loop_blocks_none vstr_ptr vstr rest _ r2 hr2 hrest]
        rw [List.map_cons, List.nodup_cons]
        exact ⟨hfresh.2, hnd.2⟩
      · rename_i hp
        obtain ⟨r2, hr2, e⟩ := Option.map_eq_some'.mp h
        subst e
        have hrest : rest.countP (fun sl => is_bookmarks_option sl.text) ≤ 1 := by
          simpa [List.countP_cons, hp] using hc
        rw [List.map_cons, List.nodup_cons]
        refine ⟨?_, ih _ r2 hr2 hnd.2 hfresh.2 hrest⟩
        intro hmem
        rcases options_loop_blocks_subset vstr_ptr vstr rest _ r2 hr2 _ hmem with h1 | h1
        · exact hfresh.1 h1.symm
        · exact hnd.1 h1

/-- The option strings that `UpdateBookmarksOption` leaves, against the pointers: on slots that
are distinct blocks holding the option texts of the state, the loop of the source returns; when
an option started with `bookmarks=` the texts it leaves are the option strings of the embedding,
when none did it leaves the slots alone (the string is then added as a copy); and when at most
one option started with `bookmarks=` no two slots share a block afterwards. -/
theorem UpdateBookmarksOption_blocks (x : Ext) (al : Alloc) (s : State)
    (slots : List option_slot) (vstr_ptr : Nat) (hm : al.memstream_ok = true)
    (htexts : slots.map option_slot.text = s.ppsz_options)
    (hnd : (slots.map option_slot.block).Nodup)
    (hfresh : vstr_ptr ∉ slots.map option_slot.block) :
    ∃ r, options_loop_blocks vstr_ptr (bookmarks_option x s.pp_bookmark) slots [] = some r
      ∧ (s.ppsz_options.any is_bookmarks_option = true →
          r.map option_slot.text = (UpdateBookmarksOption x al s).ppsz_options)
      ∧ (s.ppsz_options.any is_bookmarks_option = false → r = slots)
      ∧ (s.ppsz_options.countP is_bookmarks_option ≤ 1 →
          (r.map option_slot.block).Nodup) := by
  obtain ⟨r, hr, ht⟩ := options_loop_blocks_texts vstr_ptr (bookmarks_option x s.pp_bookmark)
    false slots [] (fun _ _ hmem => absurd hmem (List.not_mem_nil _)) hnd
  have hcount : slots.countP (fun sl => is_bookmarks_option sl.text)
      = s.ppsz_options.countP is_bookmarks_option := by
    rw [← htexts, List.countP_map]
    rfl
  refine ⟨r, hr, ?_, ?_, ?_⟩
  · intro hany
    rw [ht, htexts, options_loop_eq, UpdateBookmarksOption_options]
    simp only [hm, hany, if_true]
  · intro hany
    apply options_loop_blocks_none vstr_ptr _ slots [] r hr
    rw [hcount, List.countP_eq_zero]
    intro o ho hp
    have : s.ppsz_options.any is_bookmarks_option = true :=
      List.any_eq_true.mpr ⟨o, ho, hp⟩
    rw [hany] at this
    exact absurd this (by decide)
  · intro hle
    exact options_loop_blocks_nodup vstr_ptr _ slots [] r hr hnd hfresh (by rw [hcount]; exact hle)

/-- With two slots that start with `bookmarks=` the loop stores the pointer of the buffer in
both: the texts are those `UpdateBookmarksOption` leaves, but the two slots share one block; the
loop of the next call frees that block at the first of them and reads it again at the second
(`none`). -/
theorem options_loop_blocks_shared :
    double_option_slots.map option_slot.text = double_option_state.ppsz_options
    ∧ ∃ r, options_loop_blocks 4 (bookmarks_option libc_ext double_option_state.pp_bookmark)
              double_option_slots [] = some r
        ∧ r.map option_slot.text
            = (UpdateBookmarksOption libc_ext all_ok double_option_state).ppsz_options
        ∧ r.map option_slot.block = [4, 2, 4]
        ∧ options_loop_blocks 5 "bookmarks=" r [] = none :=
  ⟨by decide,
   [{ block := 4, text := "bookmarks=\x7bname=intro,time=2.000\x7d" },
    { block := 2, text := "video-filter=x" },
    { block := 4, text := "bookmarks=\x7bname=intro,time=2.000\x7d" }],
   by decide, by decide, by decide, by decide⟩

/-- C21 as stated fails: when `vlc_memstream_close` does not return `VLC_SUCCESS` the outdated
entry is not replaced, and on a list without such an entry none is added. -/
theorem option_list_kept_when_stream_fails :
    (UpdateBookmarksOption libc_ext memstream_fails outdated_option_state).ppsz_options
        = ["video-filter=x", "bookmarks=old"]
    ∧ bookmarks_option libc_ext outdated_option_state.pp_bookmark
        = "bookmarks=\x7bname=intro,time=2.000\x7d"
    ∧ (UpdateBookmarksOption libc_ext memstream_fails one_bookmark_state).ppsz_options = []
    ∧ (UpdateBookmarksOption libc_ext memstream_fails one_bookmark_state).ppsz_options.countP
        is_bookmarks_option = 0 := by
  decide

/-- C21 (amended): when `vlc_memstream_close` fails the option list is unchanged. When it
succeeds and at most one option started with `bookmarks=` before the call: every option that
does not start with `bookmarks=` keeps its content and position; if an option started with
`bookmarks=`, the length is unchanged and that entry is replaced, in place, by the new
serialized string; if none did, the new string is added as one new option; afterwards exactly
one option starts with `bookmarks=`. -/
theorem option_list_after_update (x : Ext) (al : Alloc) (s : State) :
    (al.memstream_ok = false →
      (UpdateBookmarksOption x al s).ppsz_options = s.ppsz_options)
    ∧ (al.memstream_ok = true → s.ppsz_options.countP is_bookmarks_option ≤ 1 →
      (∀ (i : Nat) (o : String), s.ppsz_options[i]? = some o → is_bookmarks_option o = false →
          (UpdateBookmarksOption x al s).ppsz_options[i]? = some o)
      ∧ (∀ (i : Nat) (o : String), s.ppsz_options[i]? = some o → is_bookmarks_option o = true →
          (UpdateBookmarksOption x al s).ppsz_options.length = s.ppsz_options.length
          ∧ (UpdateBookmarksOption x al s).ppsz_options[i]?
              = some (bookmarks_option x s.pp_bookmark))
      ∧ (s.ppsz_options.any is_bookmarks_option = false →
          (UpdateBookmarksOption x al s).ppsz_options
            = s.ppsz_options ++ [bookmarks_option x s.pp_bookmark])
      ∧ (UpdateBookmarksOption x al s).ppsz_options.countP is_bookmarks_option = 1) := by
  refine ⟨UpdateBookmarksOption_options_of_fail x al s, ?_⟩
  intro hm hle
  have hnew := is_bookmarks_option_bookmarks_option x s.pp_bookmark
  by_cases hany : s.ppsz_options.any is_bookmarks_option = true
  · have hopt : (UpdateBookmarksOption x al s).ppsz_options
        = s.ppsz_options.map
            (fun o => if is_bookmarks_option o then bookmarks_option x s.pp_bookmark else o) := by
      rw [UpdateBookmarksOption_options]
      simp only [hm, hany, if_true]
    refine ⟨?_, ?_, ?_, ?_⟩
    · intro i o hi hp
      rw [hopt, List.getElem?_map, hi]
      simp [hp]
    · intro i o hi hp
      rw [hopt, List.getElem?_map, hi, List.length_map]
      simp [hp]
    · intro hno
      rw [hany] at hno
      exact absurd hno (by decide)
    · rw [hopt, countP_replace _ hnew]
      have hpos : 0 < s.ppsz_options.countP is_bookmarks_option := by
        obtain ⟨o, ho, hp⟩ := List.any_eq_true.mp hany
        exact List.countP_pos_iff.mpr ⟨o, ho, hp⟩
      omega
  · have hopt : (UpdateBookmarksOption x al s).ppsz_options
        = s.ppsz_options ++ [bookmarks_option x s.pp_bookmark] := by
      rw [UpdateBookmarksOption_options]
      simp only [hm, hany, if_true]
      rw [replace_eq_self_of_not_any _ _ hany]
      have hnotin : bookmarks_option x s.pp_bookmark ∉ s.ppsz_options := fun hin =>
        hany (List.any_eq_true.mpr ⟨_, hin, hnew⟩)
      simp [input_item_AddOption, hnotin]
    have hzero : s.ppsz_options.countP is_bookmarks_option = 0 := by
      rw [List.countP_eq_zero]
      intro o ho hp
      exact hany (List.any_eq_true.mpr ⟨o, ho, hp⟩)
    refine ⟨?_, ?_, ?_, ?_⟩
    · intro i o hi _
      rw [hopt]
      have hlt : i < s.ppsz_options.length := by
        by_contra hge
        rw [List.getElem?_eq_none (by omega)] at hi
        exact absurd hi (by simp)
      rw [List.getElem?_append_left hlt]
      exact hi
    · intro i o hi hp
      exact absurd (List.any_eq_true.mpr ⟨o, List.getElem?_mem hi, hp⟩) hany
    · intro _
      exact hopt
    · rw [hopt, List.countP_append, hzero]
      simp [hnew]

/-- Witness of C21 (amended): the outdated bookmark option is replaced in place, the other
option keeps its place; on a state without options the new string is the only option. -/
theorem option_list_after_update_witness :
    all_ok.memstream_ok = true
    ∧ outdated_option_state.ppsz_options.countP is_bookmarks_option ≤ 1
    ∧ (UpdateBookmarksOption libc_ext all_ok outdated_option_state).ppsz_options
        = ["video-filter=x", "bookmarks=\x7bname=intro,time=2.000\x7d"]
    ∧ (UpdateBookmarksOption libc_ext all_ok outdated_option_state).ppsz_options.countP
        is_bookmarks_option = 1
    ∧ (UpdateBookmarksOption libc_ext all_ok one_bookmark_state).ppsz_options
        = one_bookmark_state.ppsz_options
            ++ [bookmarks_option libc_ext one_bookmark_state.pp_bookmark] :=
  ⟨rfl, by decide, by decide,
    ((option_list_after_update libc_ext all_ok outdated_option_state).2 rfl (by decide)).2.2.2,
    ((option_list_after_update libc_ext all_ok one_bookmark_state).2 rfl (by decide)).2.2.1
      (by decide)⟩

/-! ## Names of the stored bookmarks -/

/-- C22 (failing input): `INPUT_CHANGE_BOOKMARK` with a bookmark without a name, on a
collection whose bookmarks all have one, returns `VLC_SUCCESS` and stores an entry whose name is
null; `UpdateBookmarksOption` then gives that null pointer to the choice-list and to the `%s`
conversion of the option line. -/
theorem change_bookmark_stores_null_name :
    all_named one_bookmark_state.pp_bookmark
    ∧ unnamed_point.psz_name = none
    ∧ ∃ r, input_vaControl sample_ext all_ok one_bookmark_state blank_caller
          (.INPUT_CHANGE_BOOKMARK unnamed_point 0) = some r
      ∧ r.code = VLC_SUCCESS
      ∧ r.st.pp_bookmark = [unnamed_point]
      ∧ ¬ all_named r.st.pp_bookmark
      ∧ r.st.bookmark_choices = [(0, none)]
      ∧ r.st.ppsz_options = ["bookmarks=\x7bname=(null),time=0.000\x7d"] := by
  refine ⟨by simp [all_named, one_bookmark_state, intro_point], rfl,
    ⟨VLC_SUCCESS,
      UpdateBookmarksOption sample_ext all_ok
        { one_bookmark_state with
            pp_bookmark :=
              one_bookmark_state.pp_bookmark.set 0 (vlc_seekpoint_Duplicate unnamed_point) },
      blank_caller⟩, rfl, rfl, by decide, ?_, by decide, by decide⟩
  intro h
  exact h unnamed_point (by decide) rfl

/-- The other bookmark queries keep the names: when every stored bookmark has a name, so does
every bookmark stored after `INPUT_ADD_BOOKMARK`, `INPUT_DEL_BOOKMARK`, `INPUT_CLEAR_BOOKMARKS`,
and after `INPUT_CHANGE_BOOKMARK` with a bookmark that has a name. -/
theorem all_named_kept (x : Ext) (al : Alloc) (s : State) (c : Caller) (q : Query) (r : Ret)
    (hq : is_bookmark_query q = true)
    (hb : ∀ b i, q = .INPUT_CHANGE_BOOKMARK b i → b.psz_name ≠ none)
    (hinv : all_named s.pp_bookmark)
    (h : input_vaControl x al s c q = some r) :
    all_named r.st.pp_bookmark := by
  cases q <;> simp only [is_bookmark_query] at hq <;> try exact absurd hq (by decide)
  · simp only [input_vaControl] at h
    split at h
    · cases h
      intro sp hsp
      simp only [UpdateBookmarksOption_pp_bookmark, TAB_APPEND, List.mem_append,
        List.mem_singleton] at hsp
      rcases hsp with hsp | hsp
      · exact hinv sp hsp
      · rw [hsp]
        simp
    · cases h
      intro sp hsp
      simp only [UpdateBookmarksOption_pp_bookmark] at hsp
      exact hinv sp hsp
  · rename_i p_bkmk i_bkmk
    have hname := hb p_bkmk i_bkmk rfl
    simp only [input_vaControl] at h
    split at h
    · split at h
      · split at h
        · exact absurd h (by simp)
        · cases h
          intro sp hsp
          simp only [UpdateBookmarksOption_pp_bookmark] at hsp
          rcases List.mem_or_eq_of_mem_set hsp with hsp | hsp
          · exact hinv sp hsp
          · rw [hsp]
            exact hname
      · cases h
        intro sp hsp
        simp only [UpdateBookmarksOption_pp_bookmark] at hsp
        exact hinv sp hsp
    · cases h
      intro sp hsp
      simp only [UpdateBookmarksOption_pp_bookmark] at hsp
      exact hinv sp hsp
  · simp only [input_vaControl] at h
    split at h
    · split at h
      · exact absurd h (by simp)
      · cases h
        intro sp hsp
        simp only [UpdateBookmarksOption_pp_bookmark, TAB_REMOVE] at hsp
        exact hinv sp (List.mem_of_mem_eraseIdx hsp)
    · cases h
      exact hinv
  · simp only [input_vaControl] at h
    cases h
    intro sp hsp
    simp only [UpdateBookmarksOption_pp_bookmark, TAB_CLEAN] at hsp
    exact absurd hsp (List.not_mem_nil sp)

end InputControl
